import Mathlib

deriving instance DecidableEq for Except

/-!
Verification of the KILT sdk-js DID / public-credential core.

Shallow embedding of:
* the light-DID codec (`LightDidDetailsV2`: `createLightDidDocument`,
  `parseDocumentFromLightDid`, `serializeAdditionalLightDidDetails`,
  `deserializeAdditionalLightDidDetails`),
* the W3C resolver (`DidResolverV2`: `resolve`, `resolveRepresentation`,
  `dereference`),
* the public-credential reconstructor (`PublicCredential.chain`:
  `credentialFromChain` and its helpers).

External collaborators (SS58 / base58 / CBOR codec primitives, the chain
query adapter) are modelled as explicit parameter records; repository code
that is referenced but not part of the embedded modules (the DID URI
parser, `validateUri`, `getFullDidUri`, `getIdForCredential`,
`fragmentIdToChain`, `validateNewService`, `didFromChain`) is modelled
from the specification and marked as such.
-/

namespace SdkJs

/-- Key types appearing in the SDK (`DidKeyType` plus the encryption type). -/
inductive KeyType where
  | sr25519
  | ed25519
  | ecdsa
  | x25519
deriving DecidableEq, Repr

/-- `encryptionKeyTypes` from `@kiltprotocol/types`: the approved key-agreement
key types. -/
def encryptionKeyTypes : List KeyType := [KeyType.x25519]

/-- Decoded content of a multikey: key type plus raw public key bytes.
The multibase encoding itself is an external codec and is modelled as
transparent. -/
structure MultiKey where
  keyType : KeyType
  publicKey : List Nat
deriving DecidableEq, Repr

/-- A verification method: fragment id, controller and key material
(`encodeVerificationMethodToMultiKey` output; `decodeMultikeyVerificationMethod`
recovers the `MultiKey`). -/
structure VerificationMethod where
  id : String
  controller : String
  multikey : MultiKey
deriving DecidableEq, Repr

/-- `decodeMultikeyVerificationMethod`: recover key type and public key from a
verification method. -/
def decodeMultikeyVerificationMethod (vm : VerificationMethod) : MultiKey :=
  vm.multikey

/-- `encodeVerificationMethodToMultiKey(controller, id, {keyType, publicKey})`. -/
def encodeVerificationMethodToMultiKey (controller : String) (id : String)
    (mk : MultiKey) : VerificationMethod :=
  { id := id, controller := controller, multikey := mk }

/-- `NewServiceEndpoint`: a service endpoint as supplied on creation. -/
structure Service where
  id : String
  type : List String
  serviceEndpoint : List String
deriving DecidableEq, Repr

/-- A serialized service endpoint inside the light-DID auxiliary blob.
Field names `type`/`serviceEndpoint` are current; `types`/`urls` are the
retro-compatibility names that may appear in legacy blobs. -/
structure SerializedService where
  id : String
  type : Option (List String)
  serviceEndpoint : Option (List String)
  types : Option (List String)
  urls : Option (List String)
deriving DecidableEq, Repr

/-- `SerializableStructure`: the compact structure serialized into the light
DID URI (`e` = key agreement verification method, `s` = services). -/
structure SerializableStructure where
  e : Option VerificationMethod
  s : Option (List SerializedService)
deriving DecidableEq, Repr

/-- `DidDocumentV2.DidDocument` restricted to the fields the embedded code
produces or inspects.  The id-only document `{ id: did }` is represented with
all other fields empty. -/
structure DidDocument where
  id : String
  authentication : List String
  verificationMethod : List VerificationMethod
  keyAgreement : Option (List String)
  service : Option (List Service)
deriving DecidableEq, Repr

/-- `CreateDocumentInput` for `createLightDidDocument`.  The TS field
`authentication : [NewVerificationMethod]` is a one-element tuple, modelled as
a single verification method. -/
structure CreateDocumentInput where
  authentication : VerificationMethod
  keyAgreement : Option VerificationMethod
  service : Option (List Service)
deriving DecidableEq, Repr

/-- The typed exceptions thrown by the embedded code (`SDKErrors`). -/
inductive SdkError where
  | unsupportedKey
  | didError
  | publicCredentialError
  | otherError
deriving DecidableEq, Repr

/-- External codec primitives (SS58 address codec, base58 with checksum,
CBOR) consumed by the light-DID codec.  These are external collaborators;
theorems take their round-trip laws as hypotheses at the points used. -/
structure Codec where
  ss58Encode : List Nat → String
  ss58Decode : String → Option (List Nat)
  base58Encode : List Nat → String
  base58Decode : String → Option (List Nat)
  cborEncodeDetails : SerializableStructure → List Nat
  cborDecodeDetails : List Nat → Option SerializableStructure

/-! ## The DID URI parser

Modelled from the spec: the `parse` function of `Did2.utils` is not under
`src/`; the spec gives the method grammar
`did:kilt:<light:ENC<identifier>[:DATA]|full:<identifier>>[#fragment]` with an
optional version segment, fragment returned with its leading `#`, and version
defaulting to 1 when absent. -/

inductive DidType where
  | light
  | full
deriving DecidableEq, Repr

/-- The structured result of parsing a DID URI. -/
structure ParsedDid where
  ptype : DidType
  did : String
  address : String
  version : Nat
  authKeyTypeEncoding : Option String
  encodedDetails : Option String
  fragment : Option String
deriving DecidableEq, Repr

/-- Strip an expected literal character sequence from the front of a list. -/
def stripPref : List Char → List Char → Option (List Char)
  | [], rest => some rest
  | _ :: _, [] => none
  | p :: ps, c :: cs => if c = p then stripPref ps cs else none

/-- Parse an optional `v<digits>:` version segment; returns the version
(default 1) and the remaining characters. -/
def parseVersionSegment (cs : List Char) : Nat × List Char :=
  match cs with
  | [] => (1, [])
  | c :: rest =>
    if c = 'v' then
      let digits := rest.takeWhile Char.isDigit
      match rest.dropWhile Char.isDigit with
      | ':' :: tail =>
        if digits.isEmpty then (1, cs)
        else (digits.foldl (fun n d => n * 10 + (d.toNat - 48)) 0, tail)
      | _ => (1, cs)
    else (1, cs)

/-- Modelled from the spec: `parse` of `Did2.utils` (not under `src/`),
following the method grammar of spec section 4.1 and the light-DID URI
grammar of section 6. -/
def parse (uri : String) : Option ParsedDid :=
  match stripPref "did:kilt:".data uri.data with
  | none => none
  | some rest =>
    let body := rest.takeWhile (fun c => c ≠ '#')
    let fragChars := rest.dropWhile (fun c => c ≠ '#')
    let fragment : Option String :=
      if fragChars.isEmpty then none else some (String.mk fragChars)
    let didStr := String.mk ("did:kilt:".data ++ body)
    match stripPref "light:".data body with
    | some lightRest =>
      let (version, afterVersion) := parseVersionSegment lightRest
      match afterVersion with
      | c₁ :: c₂ :: rest₃ =>
        if c₁.isDigit ∧ c₂.isDigit then
          let addr := rest₃.takeWhile (fun c => c ≠ ':')
          if addr.isEmpty then none
          else
            match rest₃.dropWhile (fun c => c ≠ ':') with
            | [] =>
              some ⟨DidType.light, didStr, String.mk addr, version,
                some (String.mk [c₁, c₂]), none, fragment⟩
            | _ :: ds =>
              if ds.isEmpty then none
              else
                some ⟨DidType.light, didStr, String.mk addr, version,
                  some (String.mk [c₁, c₂]), some (String.mk ds), fragment⟩
        else none
      | _ => none
    | none =>
      if body.isEmpty ∨ body.any (fun c => c = ':') then none
      else some ⟨DidType.full, didStr, String.mk body, 1, none, none, fragment⟩

/-! ## The light DID codec (`LightDidDetailsV2`) -/

/-- `authenticationKeyId`. -/
def authenticationKeyId : String := "#authentication"

/-- `encryptionKeyId`. -/
def encryptionKeyId : String := "#encryption"

/-- `verificationKeyTypeToLightDidEncoding`: sr25519 maps to "00", ed25519 to
"01"; other key types have no encoding. -/
def verificationKeyTypeToLightDidEncoding : KeyType → Option String
  | KeyType.sr25519 => some "00"
  | KeyType.ed25519 => some "01"
  | _ => none

/-- `lightDidEncodingToVerificationKeyType`. -/
def lightDidEncodingToVerificationKeyType (enc : String) : Option KeyType :=
  if enc = "00" then some KeyType.sr25519
  else if enc = "01" then some KeyType.ed25519
  else none

/-- Modelled from the spec: `fragmentIdToChain` of `Did2.chain` (not under
`src/`); per spec section 4.2 the service IDs are stripped of their DID-URL
fragment prefix before serialization. -/
def fragmentIdToChain (id : String) : String :=
  match id.data with
  | c :: rest => if c = '#' then String.mk rest else id
  | [] => id

/-- Modelled from the spec: `validateNewService` of `Did2.chain` (not under
`src/`).  Per the spec's data model service IDs are DID-URL fragments, so a
new service ID must be a `#`-prefixed nonempty fragment; it throws otherwise. -/
def validateNewService (s : Service) : Except SdkError Unit :=
  match s.id.data with
  | c :: _ :: _ =>
    if c = '#' then Except.ok () else Except.error SdkError.didError
  | _ => Except.error SdkError.didError

/-- The per-service checks of `validateCreateDocumentInput` (the `forEach`
over the service list): a service ID must not be a reserved key ID, and must
pass `validateNewService`. -/
def validateServicesList : List Service → Except SdkError Unit
  | [] => pure ()
  | s :: rest => do
    if s.id = "#authentication" ∨ s.id = "#encryption" then
      throw SdkError.didError
    validateNewService s
    validateServicesList rest

/-- `validateCreateDocumentInput`. -/
def validateCreateDocumentInput (input : CreateDocumentInput) :
    Except SdkError Unit := do
  let authMk := decodeMultikeyVerificationMethod input.authentication
  if (verificationKeyTypeToLightDidEncoding authMk.keyType).isNone then
    throw SdkError.unsupportedKey
  match input.keyAgreement with
  | some ka =>
    let kaMk := decodeMultikeyVerificationMethod ka
    if ¬ encryptionKeyTypes.contains kaMk.keyType then
      throw SdkError.didError
  | none => pure ()
  match input.service with
  | some services => validateServicesList services
  | none => pure ()

/-- The `objectToSerialize` built by `serializeAdditionalLightDidDetails`. -/
def objectToSerialize (keyAgreement : Option VerificationMethod)
    (service : Option (List Service)) : SerializableStructure :=
  { e := keyAgreement
    s := match service with
      | some l =>
        if l.length > 0 then
          some (l.map (fun s =>
            { id := fragmentIdToChain s.id
              type := some s.type
              serviceEndpoint := some s.serviceEndpoint
              types := none
              urls := none }))
        else none
      | none => none }

/-- `serializeAdditionalLightDidDetails`: CBOR-encodes the compact structure,
prefixes the serialization-format version byte 0x0, and base58-encodes the
whole; returns nothing when the structure is empty. -/
def serializeAdditionalLightDidDetails (κ : Codec)
    (keyAgreement : Option VerificationMethod)
    (service : Option (List Service)) : Option String :=
  let obj := objectToSerialize keyAgreement service
  if obj.e = none ∧ obj.s = none then none
  else some (κ.base58Encode (0 :: κ.cborEncodeDetails obj))

/-- `deserializeAdditionalLightDidDetails`: throws on an unsupported version,
base58-decodes, checks the serialization-format byte, CBOR-decodes, and
normalizes service field names (`type ?? types`, `serviceEndpoint ?? urls`,
ids re-prefixed with `#`). -/
def deserializeAdditionalLightDidDetails (κ : Codec) (rawInput : String)
    (version : Nat) :
    Except SdkError (Option VerificationMethod × Option (List Service)) := do
  if version ≠ 1 then throw SdkError.didError
  match κ.base58Decode rawInput with
  | none => throw SdkError.didError
  | some [] => throw SdkError.didError
  | some (serializationVersion :: serialized) =>
    if serializationVersion ≠ 0 then throw SdkError.didError
    match κ.cborDecodeDetails serialized with
    | none => throw SdkError.didError
    | some deserialized =>
      return (deserialized.e,
        deserialized.s.map (fun l => l.map (fun ss =>
          { id := "#" ++ ss.id
            type := (ss.type.orElse (fun _ => ss.types)).getD []
            serviceEndpoint :=
              (ss.serviceEndpoint.orElse (fun _ => ss.urls)).getD [] })))

/-- `getAddressByVerificationMethod`: for the supported light-DID key types the
address is the SS58 encoding of the raw public key (modelled through the codec
record; the function itself lives in `Did2.utils`, outside `src/`). -/
def getAddressByVerificationMethod (κ : Codec) (vm : VerificationMethod) :
    String :=
  κ.ss58Encode (decodeMultikeyVerificationMethod vm).publicKey

/-- `createLightDidDocument`. -/
def createLightDidDocument (κ : Codec) (input : CreateDocumentInput) :
    Except SdkError DidDocument := do
  validateCreateDocumentInput input
  let encodedDetails :=
    serializeAdditionalLightDidDetails κ input.keyAgreement input.service
  let authMk := decodeMultikeyVerificationMethod input.authentication
  match verificationKeyTypeToLightDidEncoding authMk.keyType with
  | none => throw SdkError.unsupportedKey
  | some authenticationKeyTypeEncoding =>
    let address := getAddressByVerificationMethod κ input.authentication
    let encodedDetailsString :=
      match encodedDetails with
      | some d => ":" ++ d
      | none => ""
    let uri := "did:kilt:light:" ++ authenticationKeyTypeEncoding ++ address
      ++ encodedDetailsString
    let baseDoc : DidDocument :=
      { id := uri
        authentication := [authenticationKeyId]
        verificationMethod :=
          [encodeVerificationMethodToMultiKey uri authenticationKeyId
            { keyType := authMk.keyType, publicKey := authMk.publicKey }]
        keyAgreement := none
        service := input.service }
    match input.keyAgreement with
    | none => return baseDoc
    | some ka =>
      let kaMk := decodeMultikeyVerificationMethod ka
      return { baseDoc with
        keyAgreement := some [encryptionKeyId]
        verificationMethod := baseDoc.verificationMethod ++
          [encodeVerificationMethodToMultiKey uri encryptionKeyId
            { keyType := kaMk.keyType, publicKey := kaMk.publicKey }] }

/-- `parseDocumentFromLightDid`. -/
def parseDocumentFromLightDid (κ : Codec) (uri : String)
    (failIfFragmentPresent : Bool) : Except SdkError DidDocument := do
  match parse uri with
  | none => throw SdkError.didError
  | some parsed =>
    if parsed.ptype ≠ DidType.light then throw SdkError.didError
    if parsed.fragment.isSome ∧ failIfFragmentPresent then
      throw SdkError.didError
    match parsed.authKeyTypeEncoding.bind lightDidEncodingToVerificationKeyType
      with
    | none => throw SdkError.didError
    | some keyType =>
      match κ.ss58Decode parsed.address with
      | none => throw SdkError.didError
      | some publicKey =>
        let authentication := encodeVerificationMethodToMultiKey uri
          authenticationKeyId { keyType := keyType, publicKey := publicKey }
        match parsed.encodedDetails with
        | none =>
          createLightDidDocument κ
            { authentication := authentication, keyAgreement := none,
              service := none }
        | some encodedDetails =>
          let (keyAgreement, service) ←
            deserializeAdditionalLightDidDetails κ encodedDetails parsed.version
          createLightDidDocument κ
            { authentication := authentication, keyAgreement := keyAgreement,
              service := service }

/-! ## The W3C DID resolver (`DidResolverV2`)

The chain query adapter is modelled as a record of pure functions; a query
may also raise an exception (`QueryResult.exn`).  Every resolver operation
additionally returns the ordered list of chain queries it issued, so that
"no chain query happens" is a provable statement. -/

/-- Outcome of a fallible chain-adapter query. -/
inductive QueryResult (α : Type) where
  | ok (a : α)
  | exn
deriving DecidableEq, Repr

/-- The consumed chain-adapter capability set (spec section 6):
`queryLinkedInfo` (the `api.call.did.query` + `linkedInfoFromChain` pipeline)
and the deleted-DID index membership test (`api.query.did.didBlacklist`). -/
structure ChainApi where
  linkedInfo : String → QueryResult (Option DidDocument)
  didBlacklist : String → Bool

/-- A chain query issued during resolution. -/
inductive ChainQuery where
  | linkedInfo (identifier : String)
  | blacklist (identifier : String)
deriving DecidableEq, Repr

/-- Modelled from the spec: `toChain` of `Did2.chain` (not under `src/`)
keys chain lookups by the DID's method-specific identifier. -/
def toChain (did : String) : String :=
  match parse did with
  | some p => p.address
  | none => ""

/-- Modelled from the spec: `getFullDidUri` of `Did2.utils` (not under
`src/`); the canonical full form `did:kilt:<identifier>` of a DID. -/
def getFullDidUri (did : String) : String :=
  match parse did with
  | some p => "did:kilt:" ++ p.address
  | none => did

/-- Modelled from the spec: `validateUri(did, 'Did')` of `Did2.utils` (not
under `src/`): the string must parse under the method grammar and carry no
fragment. -/
def isValidDidUri (did : String) : Bool :=
  match parse did with
  | some p => p.fragment.isNone
  | none => false

/-- Modelled from the spec: `validateUri(didUrl)` of `Did2.utils` (not under
`src/`): the string must parse under the method grammar (fragment allowed). -/
def isValidDidUrl (didUrl : String) : Bool :=
  (parse didUrl).isSome

/-- W3C resolution / dereferencing error codes (spec section 7). -/
inductive ResolutionError where
  | invalidDid
  | notFound
  | representationNotSupported
  | invalidDidUrl
deriving DecidableEq, Repr

/-- `ResolutionDocumentMetadata`: `{deactivated?, canonicalId?}`. -/
structure DocumentMetadata where
  deactivated : Option Bool
  canonicalId : Option String
deriving DecidableEq, Repr

/-- The empty document metadata `{}`. -/
def emptyDocumentMetadata : DocumentMetadata :=
  { deactivated := none, canonicalId := none }

/-- `InternalResolutionResult`. -/
structure InternalResolutionResult where
  document : Option DidDocument
  documentMetadata : DocumentMetadata
deriving DecidableEq, Repr

/-- `ResolutionResult`: `{didResolutionMetadata: {error?}, didDocumentMetadata,
didDocument?}`. -/
structure ResolutionResult where
  error : Option ResolutionError
  didDocumentMetadata : DocumentMetadata
  didDocument : Option DidDocument
deriving DecidableEq, Repr

/-- The supported representation media types. -/
def DID_JSON : String := "application/did+json"

def DID_JSON_LD : String := "application/did+ld+json"

def DID_CBOR : String := "application/did+cbor"

/-- `isValidContentType`. -/
def isValidContentType (input : String) : Bool :=
  input = DID_JSON ∨ input = DID_JSON_LD ∨ input = DID_CBOR

/-- The document-lookup step of `resolveInternal`: the linked-info query with
its `catch` — an adapter exception is treated as "no document". -/
def documentLookup (api : ChainApi) (identifier : String) :
    Option DidDocument :=
  match api.linkedInfo identifier with
  | QueryResult.ok d => d
  | QueryResult.exn => none

/-- `resolveInternal`: document lookup (adapter exceptions caught and treated
as no document), full-and-live check, deleted-index check, then light-DID
reconstruction with migration detection.  Returns the issued queries, and
either a thrown `SdkError` or the optional internal result (`null` meaning
not found). -/
def resolveInternal (κ : Codec) (api : ChainApi) (did : String) :
    List ChainQuery × Except SdkError (Option InternalResolutionResult) :=
  match parse did with
  | none => ([], Except.error SdkError.didError)
  | some parsed =>
    let identifier := toChain did
    let document : Option DidDocument := documentLookup api identifier
    let q₁ : List ChainQuery := [ChainQuery.linkedInfo identifier]
    if parsed.ptype = DidType.full ∧ document.isSome then
      (q₁, Except.ok (some
        { document := document, documentMetadata := emptyDocumentMetadata }))
    else
      let isFullDidDeleted := api.didBlacklist identifier
      let q₂ := q₁ ++ [ChainQuery.blacklist identifier]
      if isFullDidDeleted then
        (q₂, Except.ok (some
          { document := none
            documentMetadata := { deactivated := some true, canonicalId := none } }))
      else if parsed.ptype = DidType.full then
        (q₂, Except.ok none)
      else
        match parseDocumentFromLightDid κ did false with
        | Except.error e => (q₂, Except.error e)
        | Except.ok lightDocument =>
          if document.isSome then
            (q₂, Except.ok (some
              { document := some
                  { id := did, authentication := [], verificationMethod := [],
                    keyAgreement := none, service := none }
                documentMetadata :=
                  { deactivated := none
                    canonicalId := some (getFullDidUri did) } }))
          else
            (q₂, Except.ok (some
              { document := some lightDocument
                documentMetadata := emptyDocumentMetadata }))

/-- `resolve`. -/
def resolve (κ : Codec) (api : ChainApi) (did : String) :
    List ChainQuery × Except SdkError ResolutionResult :=
  if ¬ isValidDidUri did then
    ([], Except.ok
      { error := some ResolutionError.invalidDid
        didDocumentMetadata := emptyDocumentMetadata
        didDocument := none })
  else
    match resolveInternal κ api did with
    | (qs, Except.error e) => (qs, Except.error e)
    | (qs, Except.ok none) =>
      (qs, Except.ok
        { error := some ResolutionError.notFound
          didDocumentMetadata := emptyDocumentMetadata
          didDocument := none })
    | (qs, Except.ok (some r)) =>
      (qs, Except.ok
        { error := none
          didDocumentMetadata := r.documentMetadata
          didDocument := r.document })

/-- The serialized document stream, per negotiated media type.  The JSON /
JSON-LD / CBOR serializers are external; the stream is modelled as a tagged
value recording which serialization was produced (JSON-LD carries the W3C and
KILT context URLs injected as the `@context` array). -/
inductive DocumentStream where
  | json (d : DidDocument)
  | jsonLd (d : DidDocument) (contexts : List String)
  | cborBytes (d : DidDocument)
deriving DecidableEq, Repr

def W3C_DID_CONTEXT_URL : String := "https://www.w3.org/ns/did/v1"

def KILT_DID_CONTEXT_URL : String := "ipfs://QmU7QkuTCPz7NmD5bD7Z7mQVz2UsSPaEK58B5sYnjnPRNW"

/-- `RepresentationResolutionResult`. -/
structure RepresentationResolutionResult where
  error : Option ResolutionError
  didDocumentMetadata : DocumentMetadata
  didDocumentStream : Option DocumentStream
deriving DecidableEq, Repr

/-- `resolveRepresentation`: content-type validation first (no chain query on
failure), then `resolve`, then serialization of the document. -/
def resolveRepresentation (κ : Codec) (api : ChainApi) (did : String)
    (accept : String) :
    List ChainQuery × Except SdkError RepresentationResolutionResult :=
  if ¬ isValidContentType accept then
    ([], Except.ok
      { error := some ResolutionError.representationNotSupported
        didDocumentMetadata := emptyDocumentMetadata
        didDocumentStream := none })
  else
    match resolve κ api did with
    | (qs, Except.error e) => (qs, Except.error e)
    | (qs, Except.ok res) =>
      match res.didDocument with
      | none =>
        (qs, Except.ok
          { error := res.error
            didDocumentMetadata := res.didDocumentMetadata
            didDocumentStream := none })
      | some didDocument =>
        let stream :=
          if accept = DID_JSON then DocumentStream.json didDocument
          else if accept = DID_JSON_LD then
            DocumentStream.jsonLd didDocument
              [W3C_DID_CONTEXT_URL, KILT_DID_CONTEXT_URL]
          else DocumentStream.cborBytes didDocument
        (qs, Except.ok
          { error := res.error
            didDocumentMetadata := res.didDocumentMetadata
            didDocumentStream := some stream })

/-- The resource found by dereferencing: the whole document, a verification
method, or a service endpoint. -/
inductive DereferencedResource where
  | doc (d : DidDocument)
  | vm (v : VerificationMethod)
  | svc (s : Service)
deriving DecidableEq, Repr

/-- `InternalDereferenceResult`. -/
structure InternalDereferenceResult where
  contentStream : Option DereferencedResource
  contentMetadata : DocumentMetadata
deriving DecidableEq, Repr

/-- `dereferenceInternal`: resolves the DID and, when a fragment is present,
searches verification methods then service endpoints for a matching id. -/
def dereferenceInternal (κ : Codec) (api : ChainApi) (didUrl : String)
    (_accept : String) :
    List ChainQuery × Except SdkError InternalDereferenceResult :=
  match parse didUrl with
  | none => ([], Except.error SdkError.didError)
  | some parsed =>
    match resolve κ api parsed.did with
    | (qs, Except.error e) => (qs, Except.error e)
    | (qs, Except.ok res) =>
      match parsed.fragment with
      | none =>
        (qs, Except.ok
          { contentStream := res.didDocument.map DereferencedResource.doc
            contentMetadata := res.didDocumentMetadata })
      | some fragment =>
        let dereferencedResource : Option DereferencedResource :=
          match res.didDocument.bind (fun d =>
            d.verificationMethod.find? (fun m => m.id = fragment)) with
          | some m => some (DereferencedResource.vm m)
          | none =>
            (res.didDocument.bind (fun d =>
              (d.service.getD []).find? (fun s => s.id = fragment))).map
              DereferencedResource.svc
        (qs, Except.ok
          { contentStream := dereferencedResource
            contentMetadata := emptyDocumentMetadata })

/-- The dereferenced content stream in the negotiated encoding. -/
inductive EncodedResource where
  | raw (r : DereferencedResource)
  | withContext (r : DereferencedResource) (contexts : List String)
  | cborBytes (r : DereferencedResource)
deriving DecidableEq, Repr

/-- `DereferenceResult`: `{dereferencingMetadata: {error?, contentType?},
contentMetadata, contentStream?}`. -/
structure DereferenceResult where
  error : Option ResolutionError
  contentType : Option String
  contentMetadata : DocumentMetadata
  contentStream : Option EncodedResource
deriving DecidableEq, Repr

/-- The body of `dereference` after content-type normalization. -/
def dereferenceNormalized (κ : Codec) (api : ChainApi) (didUrl : String)
    (contentType : String) :
    List ChainQuery × Except SdkError DereferenceResult :=
  if ¬ isValidDidUrl didUrl then
    ([], Except.ok
      { error := some ResolutionError.invalidDidUrl
        contentType := none
        contentMetadata := emptyDocumentMetadata
        contentStream := none })
  else
    match dereferenceInternal κ api didUrl contentType with
    | (qs, Except.error e) => (qs, Except.error e)
    | (qs, Except.ok res) =>
      match res.contentStream with
      | none =>
        (qs, Except.ok
          { error := some ResolutionError.notFound
            contentType := none
            contentMetadata := res.contentMetadata
            contentStream := none })
      | some contentStream =>
        let stream :=
          if contentType = DID_JSON then EncodedResource.raw contentStream
          else if contentType = DID_JSON_LD then
            EncodedResource.withContext contentStream
              [W3C_DID_CONTEXT_URL, KILT_DID_CONTEXT_URL]
          else EncodedResource.cborBytes contentStream
        (qs, Except.ok
          { error := none
            contentType := some contentType
            contentMetadata := res.contentMetadata
            contentStream := some stream })

/-- `dereference`: an unsupported `accept` falls back silently to
`application/did+json`. -/
def dereference (κ : Codec) (api : ChainApi) (didUrl : String)
    (accept : String) :
    List ChainQuery × Except SdkError DereferenceResult :=
  dereferenceNormalized κ api didUrl
    (if isValidContentType accept then accept else DID_JSON)

/-! ## Public credential reconstruction (`PublicCredential.chain`) -/

/-- The decoded claims payload; the claims are an arbitrary CBOR-decodable
structure, modelled as the raw byte list obtained from the CBOR decoder. -/
abbrev Claims := List Nat

/-- A blockchain-formatted public credential
(`PublicCredentialsCredentialsCredential`): CType hash, subject bytes
(already UTF-8 decoded in the model), CBOR-encoded claims and optional
authorization id. -/
structure ChainCredential where
  ctypeHash : String
  subject : String
  claims : List Nat
  authorization : Option String
deriving DecidableEq, Repr

/-- Which batch variant a utility call is. -/
inductive BatchKind where
  | batch
  | batchAll
  | forceBatch
deriving DecidableEq, Repr

/-- The tagged union of chain calls the reconstructor classifies:
`utility.{batch,batchAll,forceBatch}` (arbitrarily nested),
`did.submitDidCall` (DID-authorized wrapper carrying the origin identifier),
`publicCredentials.add`, or any other call. -/
inductive CCall where
  | utilityBatch (kind : BatchKind) (calls : List CCall)
  | submitDidCall (did : String) (call : CCall)
  | publicCredentialsAdd (credential : ChainCredential)
  | other (tag : Nat)

mutual

/-- `flattenCalls`: flatten any nested batch calls into a single list. -/
def flattenCalls : CCall → List CCall
  | CCall.utilityBatch _ calls => flattenCallList calls
  | c => [c]

def flattenCallList : List CCall → List CCall
  | [] => []
  | c :: cs => flattenCalls c ++ flattenCallList cs

end

/-- `api.tx.publicCredentials.add.is` plus argument extraction. -/
def asPublicCredentialsAdd : CCall → Option ChainCredential
  | CCall.publicCredentialsAdd cred => some cred
  | _ => none

/-- `api.tx.did.submitDidCall.is` plus argument extraction (origin, call). -/
def asSubmitDidCall : CCall → Option (String × CCall)
  | CCall.submitDidCall did call => some (did, call)
  | _ => none

/-- `extractPublicCredentialCreationCallsFromDidCall`. -/
def extractPublicCredentialCreationCallsFromDidCall (call : CCall) :
    List ChainCredential :=
  (flattenCalls call).filterMap asPublicCredentialsAdd

/-- `extractDidCallsFromBatchCall`. -/
def extractDidCallsFromBatchCall (call : CCall) : List (String × CCall) :=
  (flattenCalls call).filterMap asSubmitDidCall

/-- Modelled from the spec: `fromChain` of the did package (not under `src/`)
turns a chain identifier into the full DID URI `did:kilt:<identifier>`. -/
def didFromChain (identifier : String) : String :=
  "did:kilt:" ++ identifier

/-- An event emitted by an extrinsic; only the "credential stored" predicate
and the stored credential id (`event.data[1]`) are observed. -/
inductive ChainEvent where
  | credentialStored (credentialId : String)
  | other (tag : Nat)
deriving DecidableEq, Repr

/-- One entry of `getBlockByNumber(n).extrinsics`: the top-level call, the
emitted events, and whether a dispatch error occurred. -/
structure ExtrinsicRecord where
  extrinsic : CCall
  events : List ChainEvent
  dispatchError : Bool

/-- `IPublicCredentialInput`. -/
structure IPublicCredentialInput where
  claims : Claims
  cTypeHash : String
  delegationId : Option String
  subject : String
deriving DecidableEq, Repr

/-- `IPublicCredential`: the reconstructed credential. -/
structure IPublicCredential where
  claims : Claims
  cTypeHash : String
  delegationId : Option String
  subject : String
  attester : String
  id : String
  blockNumber : Nat
  revoked : Bool
deriving DecidableEq, Repr

/-- The on-chain commitment entry
(`PublicCredentialsCredentialsCredentialEntry`). -/
structure CredentialEntry where
  blockNumber : Nat
  revoked : Bool
deriving DecidableEq, Repr

/-- The external environment of the reconstructor: the block query of the
chain adapter (`none` = the query rejects), the CBOR claims decoder (`none` =
decoding throws), the asset-DID URI validator of the asset-did package, and
the deterministic credential identifier `getIdForCredential`.  The latter two
are repository code outside `src/`, modelled from the spec: `getIdForCredential`
is a deterministic function of the credential input and the attester. -/
structure CredEnv where
  getBlock : Nat → Option (List ExtrinsicRecord)
  cborDecodeClaims : List Nat → Option Claims
  validAssetUri : String → Bool
  getIdForCredential : IPublicCredentialInput → String → String

/-- `credentialInputFromChain`: decode a blockchain-formatted credential into
the original input; throws if what was written on chain was garbage. -/
def credentialInputFromChain (env : CredEnv) (cc : ChainCredential) :
    Except SdkError IPublicCredentialInput := do
  if ¬ env.validAssetUri cc.subject then throw SdkError.otherError
  match env.cborDecodeClaims cc.claims with
  | none => throw SdkError.otherError
  | some claims =>
    return { claims := claims
             cTypeHash := cc.ctypeHash
             delegationId := cc.authorization
             subject := cc.subject }

/-- Does the event signal that `credentialId` was stored? -/
def eventMatchesCredential (credentialId : String) : ChainEvent → Bool
  | ChainEvent.credentialStored i => i = credentialId
  | _ => false

/-- `retrievePublicCredentialCreationExtrinsicFromBlock`: fetch the block,
keep successful extrinsics only, and take the last one (scanning in reverse)
whose events include a matching "credential stored" event. -/
def retrievePublicCredentialCreationExtrinsicFromBlock (env : CredEnv)
    (credentialId : String) (blockNumber : Nat) :
    Except SdkError (Option CCall) := do
  match env.getBlock blockNumber with
  | none => throw SdkError.otherError
  | some extrinsics =>
    let successfulExtrinsics := extrinsics.filter (fun e => ¬ e.dispatchError)
    let lastPublicCredentialCreationExtrinsic :=
      successfulExtrinsics.reverse.find? (fun e =>
        e.events.any (eventMatchesCredential credentialId))
    return lastPublicCredentialCreationExtrinsic.map (fun e => e.extrinsic)

/-- The candidate selection of `credentialFromChain` for a `did.submitDidCall`
extrinsic: decode every extracted `publicCredentials.add` call, then pick the
last one (by call order) whose recomputed identifier matches. -/
def selectFromDidCallExtrinsic (env : CredEnv) (credentialId : String)
    (origin : String) (call : CCall) :
    Except SdkError (Option (IPublicCredentialInput × String)) := do
  let credentialCreationCalls :=
    extractPublicCredentialCreationCallsFromDidCall call
  let callCredentialsContent ←
    credentialCreationCalls.mapM (credentialInputFromChain env)
  let lastRightCredentialCreationCall :=
    callCredentialsContent.reverse.find? (fun c =>
      env.getIdForCredential c origin == credentialId)
  return lastRightCredentialCreationCall.map (fun c => (c, origin))

/-- The candidate selection of `credentialFromChain` for a batch extrinsic:
extract the `did.submitDidCall` calls, within each extract the
`publicCredentials.add` calls paired with their DID submitter, decode them,
and pick the last pair whose recomputed identifier matches. -/
def selectFromBatchExtrinsic (env : CredEnv) (credentialId : String)
    (batchCalls : List CCall) :
    Except SdkError (Option (IPublicCredentialInput × String)) := do
  let didCalls := batchCalls.flatMap extractDidCallsFromBatchCall
  let credentialCreationCalls := didCalls.flatMap (fun dc =>
    (extractPublicCredentialCreationCallsFromDidCall dc.2).map (fun c =>
      (c, didFromChain dc.1)))
  let callCredentialsContent ← credentialCreationCalls.mapM (fun cs =>
    (credentialInputFromChain env cs.1).map (fun ci => (ci, cs.2)))
  let lastRightCredentialCreationCall :=
    callCredentialsContent.reverse.find? (fun cs =>
      env.getIdForCredential cs.1 cs.2 == credentialId)
  return lastRightCredentialCreationCall

/-- `credentialFromChain`: reconstruct a public credential from the chain
history given its id and on-chain commitment entry. -/
def credentialFromChain (env : CredEnv) (credentialId : String)
    (publicCredentialEntry : Option CredentialEntry) :
    Except SdkError IPublicCredential := do
  match publicCredentialEntry with
  | none => throw SdkError.otherError
  | some entry =>
    let extrinsic? ← retrievePublicCredentialCreationExtrinsicFromBlock env
      credentialId entry.blockNumber
    match extrinsic? with
    | none => throw SdkError.publicCredentialError
    | some extrinsic =>
      let selected ←
        match extrinsic with
        | CCall.submitDidCall did call =>
          selectFromDidCallExtrinsic env credentialId (didFromChain did) call
        | CCall.utilityBatch _ batchCalls =>
          selectFromBatchExtrinsic env credentialId batchCalls
        | _ => throw SdkError.publicCredentialError
      match selected with
      | none => throw SdkError.publicCredentialError
      | some (credentialInput, submitter) =>
        return { claims := credentialInput.claims
                 cTypeHash := credentialInput.cTypeHash
                 delegationId := credentialInput.delegationId
                 subject := credentialInput.subject
                 attester := submitter
                 id := env.getIdForCredential credentialInput submitter
                 blockNumber := entry.blockNumber
                 revoked := entry.revoked }

/-! ## A concrete model codec

An executable instantiation of the external codec primitives, used to
evaluate the embedding on concrete inputs (witnesses and counterexamples).
It renders bytes as hexadecimal digit pairs — like the real SS58/base58
codecs, its output alphabet avoids `:` and `#`. -/

/-- A hexadecimal digit character. -/
def hexChar (n : Nat) : Char :=
  if n < 10 then Char.ofNat (48 + n) else Char.ofNat (87 + n)

/-- The numeric value of a hexadecimal digit character. -/
def hexVal (c : Char) : Option Nat :=
  if 48 ≤ c.toNat ∧ c.toNat ≤ 57 then some (c.toNat - 48)
  else if 97 ≤ c.toNat ∧ c.toNat ≤ 102 then some (c.toNat - 87)
  else none

/-- Render a byte as two hexadecimal digits. -/
def byteHex (b : Nat) : List Char := [hexChar (b / 16 % 16), hexChar (b % 16)]

/-- Decode a sequence of hexadecimal digit pairs. -/
def decodeHexPairs : List Char → Option (List Nat)
  | [] => some []
  | c₁ :: c₂ :: rest => do
    let v₁ ← hexVal c₁
    let v₂ ← hexVal c₂
    let tail ← decodeHexPairs rest
    return (16 * v₁ + v₂) :: tail
  | _ => none

/-- Model SS58 address codec: a `4` marker followed by hex pairs. -/
def specSs58Encode (publicKey : List Nat) : String :=
  String.mk ('4' :: publicKey.flatMap byteHex)

def specSs58Decode (s : String) : Option (List Nat) :=
  match s.data with
  | '4' :: rest => decodeHexPairs rest
  | _ => none

/-- Model base58 codec: hex pairs. -/
def specBase58Encode (bytes : List Nat) : String :=
  String.mk (bytes.flatMap byteHex)

def specBase58Decode (s : String) : Option (List Nat) :=
  decodeHexPairs s.data

/-! Byte-level serialization of `SerializableStructure` standing in for the
external CBOR codec: a simple tag/length-prefixed format with a matching
decoder. -/

def encString (s : String) : List Nat :=
  s.data.length :: s.data.map Char.toNat

def encListString (l : List String) : List Nat :=
  l.length :: l.flatMap encString

def encOptListString : Option (List String) → List Nat
  | none => [0]
  | some l => 1 :: encListString l

def encSerializedService (s : SerializedService) : List Nat :=
  encString s.id ++ encOptListString s.type ++ encOptListString s.serviceEndpoint
    ++ encOptListString s.types ++ encOptListString s.urls

def encKeyType : KeyType → Nat
  | KeyType.sr25519 => 0
  | KeyType.ed25519 => 1
  | KeyType.ecdsa => 2
  | KeyType.x25519 => 3

def encVerificationMethod (vm : VerificationMethod) : List Nat :=
  encString vm.id ++ encString vm.controller ++
    (encKeyType vm.multikey.keyType :: vm.multikey.publicKey.length ::
      vm.multikey.publicKey)

def specCborEncode (o : SerializableStructure) : List Nat :=
  (match o.e with
    | none => [0]
    | some vm => 1 :: encVerificationMethod vm) ++
  (match o.s with
    | none => [0]
    | some l => 1 :: l.length :: l.flatMap encSerializedService)

def decChars : Nat → List Nat → Option (List Char × List Nat)
  | 0, rest => some ([], rest)
  | _ + 1, [] => none
  | n + 1, b :: rest => do
    let (cs, r) ← decChars n rest
    return (Char.ofNat b :: cs, r)

def decString : List Nat → Option (String × List Nat)
  | [] => none
  | n :: rest => do
    let (cs, r) ← decChars n rest
    return (String.mk cs, r)

def decStrings : Nat → List Nat → Option (List String × List Nat)
  | 0, rest => some ([], rest)
  | n + 1, rest => do
    let (s, r) ← decString rest
    let (ss, r') ← decStrings n r
    return (s :: ss, r')

def decListString (bs : List Nat) : Option (List String × List Nat) :=
  match bs with
  | [] => none
  | n :: rest => decStrings n rest

def decOptListString (bs : List Nat) :
    Option (Option (List String) × List Nat) :=
  match bs with
  | 0 :: rest => some (none, rest)
  | 1 :: rest => (decListString rest).map (fun p => (some p.1, p.2))
  | _ => none

def decSerializedService (bs : List Nat) :
    Option (SerializedService × List Nat) := do
  let (id, r₁) ← decString bs
  let (type, r₂) ← decOptListString r₁
  let (serviceEndpoint, r₃) ← decOptListString r₂
  let (types, r₄) ← decOptListString r₃
  let (urls, r₅) ← decOptListString r₄
  return (⟨id, type, serviceEndpoint, types, urls⟩, r₅)

def decSerializedServices : Nat → List Nat → Option (List SerializedService × List Nat)
  | 0, rest => some ([], rest)
  | n + 1, rest => do
    let (s, r) ← decSerializedService rest
    let (ss, r') ← decSerializedServices n r
    return (s :: ss, r')

def decKeyType (n : Nat) : Option KeyType :=
  if n = 0 then some KeyType.sr25519
  else if n = 1 then some KeyType.ed25519
  else if n = 2 then some KeyType.ecdsa
  else if n = 3 then some KeyType.x25519
  else none

def decVerificationMethod (bs : List Nat) :
    Option (VerificationMethod × List Nat) := do
  let (id, r₁) ← decString bs
  let (controller, r₂) ← decString r₁
  match r₂ with
  | kt :: len :: rest =>
    let keyType ← decKeyType kt
    if rest.length < len then none
    else
      return (⟨id, controller, ⟨keyType, rest.take len⟩⟩, rest.drop len)
  | _ => none

def specCborDecode (bs : List Nat) : Option SerializableStructure := do
  let (e, r₁) ←
    match bs with
    | 0 :: rest => some ((none : Option VerificationMethod), rest)
    | 1 :: rest => (decVerificationMethod rest).map (fun p => (some p.1, p.2))
    | _ => none
  let (s, r₂) ←
    match r₁ with
    | 0 :: rest => some ((none : Option (List SerializedService)), rest)
    | 1 :: n :: rest =>
      (decSerializedServices n rest).map (fun p => (some p.1, p.2))
    | _ => none
  if r₂.isEmpty then some ⟨e, s⟩ else none

/-- The concrete model codec. -/
def specCodec : Codec :=
  { ss58Encode := specSs58Encode
    ss58Decode := specSs58Decode
    base58Encode := specBase58Encode
    base58Decode := specBase58Decode
    cborEncodeDetails := specCborEncode
    cborDecodeDetails := specCborDecode }

/-! ## Concrete environments for witnesses and counterexamples -/

/-- A chain adapter on which every linked-info query raises and no DID is
deleted. -/
def emptyChainApi : ChainApi :=
  { linkedInfo := fun _ => QueryResult.exn
    didBlacklist := fun _ => false }

/-- A minimal full DID document used as a linked-info query answer. -/
def sampleFullDoc : DidDocument :=
  { id := "did:kilt:40102"
    authentication := ["#key1"]
    verificationMethod := []
    keyAgreement := none
    service := none }

/-- A chain adapter on which every identifier has a full DID document and no
DID is deleted. -/
def migratedChainApi : ChainApi :=
  { linkedInfo := fun _ => QueryResult.ok (some sampleFullDoc)
    didBlacklist := fun _ => false }

/-- A chain adapter on which every linked-info query raises and every DID is
in the deleted index. -/
def deletedChainApi : ChainApi :=
  { linkedInfo := fun _ => QueryResult.exn
    didBlacklist := fun _ => true }

/-- A concrete deterministic identifier function standing in for the
`getIdForCredential` hash. -/
def sampleGetId (ci : IPublicCredentialInput) (attester : String) : String :=
  ci.cTypeHash ++ "@" ++ attester

/-- A concrete asset DID subject. -/
def sampleSubject : String := "did:asset:eip155:1.slip44:60"

/-- Two chain credentials with equal CType hash (hence, under `sampleGetId`
and a common attester, equal recomputed identifiers) but different claims. -/
def sampleChainCredA : ChainCredential := ⟨"ct1", sampleSubject, [1], none⟩

def sampleChainCredB : ChainCredential := ⟨"ct1", sampleSubject, [2], none⟩

/-- A credential environment serving a fixed block at every height. -/
def mkCredEnv (block : List ExtrinsicRecord) : CredEnv :=
  { getBlock := fun _ => some block
    cborDecodeClaims := fun bs => some bs
    validAssetUri := fun _ => true
    getIdForCredential := sampleGetId }

/-- The recomputed identifier both sample credentials share when submitted by
`alice`. -/
def sampleCredId : String := "ct1@did:kilt:alice"

/-- A block whose only successful extrinsic is a `did.submitDidCall` carrying
one credential creation call. -/
def singleAddBlock : List ExtrinsicRecord :=
  [⟨CCall.submitDidCall "alice" (CCall.publicCredentialsAdd sampleChainCredA),
    [ChainEvent.credentialStored sampleCredId], false⟩]

/-- A block whose only successful extrinsic is a `did.submitDidCall` carrying
two credential creation calls with the same recomputed identifier. -/
def doubleAddBlock : List ExtrinsicRecord :=
  [⟨CCall.submitDidCall "alice"
      (CCall.utilityBatch BatchKind.batchAll
        [CCall.publicCredentialsAdd sampleChainCredA,
          CCall.publicCredentialsAdd sampleChainCredB]),
    [ChainEvent.credentialStored sampleCredId], false⟩]

/-- A light-DID creation input exercising every optional field: an ed25519
authentication key, an x25519 key-agreement key and one service endpoint. -/
def roundtripWitnessInput : CreateDocumentInput :=
  { authentication := ⟨"#a", "c", ⟨KeyType.ed25519, [1, 2]⟩⟩
    keyAgreement := some ⟨"#ka", "c", ⟨KeyType.x25519, [9]⟩⟩
    service := some [⟨"#svc", ["T"], ["https://x"]⟩] }

/-- The document created from `roundtripWitnessInput` under the model
codec. -/
def roundtripWitnessDoc : DidDocument :=
  match createLightDidDocument specCodec roundtripWitnessInput with
  | Except.ok d => d
  | Except.error _ => ⟨"", [], [], none, none⟩

/-- The document `createLightDidDocument` builds once validation has passed,
expressed over the decoded authentication key `(akt, apk)` and its URI
encoding `enc` (a specification helper for the round-trip proof). -/
def builtLightDocument (κ : Codec) (input : CreateDocumentInput)
    (akt : KeyType) (apk : List Nat) (enc : String) : DidDocument :=
  let address := κ.ss58Encode apk
  let encodedDetails :=
    serializeAdditionalLightDidDetails κ input.keyAgreement input.service
  let uri := "did:kilt:light:" ++ enc ++ address ++
    (match encodedDetails with
      | some d => ":" ++ d
      | none => "")
  { id := uri
    authentication := [authenticationKeyId]
    verificationMethod :=
      match input.keyAgreement with
      | none =>
        [encodeVerificationMethodToMultiKey uri authenticationKeyId
          ⟨akt, apk⟩]
      | some ka =>
        [encodeVerificationMethodToMultiKey uri authenticationKeyId
          ⟨akt, apk⟩,
          encodeVerificationMethodToMultiKey uri encryptionKeyId
            (decodeMultikeyVerificationMethod ka)]
    keyAgreement :=
      match input.keyAgreement with
      | none => none
      | some _ => some [encryptionKeyId]
    service := input.service }

/-! ## Theorems -/

/-- Claim C7: for every accept value outside the supported set,
`resolveRepresentation` returns `didResolutionMetadata.error =
representationNotSupported` before issuing any chain query: the issued query
trace is empty and the result is a constant independent of the chain adapter
and the DID. -/
theorem resolveRepresentation_rejects_unsupported_accept_without_chain_query
    (κ : Codec) (api : ChainApi) (did accept : String)
    (h : ¬ isValidContentType accept) :
    resolveRepresentation κ api did accept =
      ([], Except.ok
        { error := some ResolutionError.representationNotSupported
          didDocumentMetadata := emptyDocumentMetadata
          didDocumentStream := none }) := by
  simp only [resolveRepresentation]
  rw [if_pos]
  simpa using h

/-- Witness for claim C7 at a concrete unsupported accept value. -/
theorem resolveRepresentation_rejects_unsupported_accept_witness :
    ¬ isValidContentType "text/html" ∧
      resolveRepresentation specCodec emptyChainApi "did:kilt:4abc" "text/html"
        = ([], Except.ok
          { error := some ResolutionError.representationNotSupported
            didDocumentMetadata := emptyDocumentMetadata
            didDocumentStream := none }) :=
  ⟨by decide,
    resolveRepresentation_rejects_unsupported_accept_without_chain_query
      specCodec emptyChainApi "did:kilt:4abc" "text/html" (by decide)⟩

/-- On a successful dereference with a supported content type, the result
never carries `representationNotSupported` and reports the negotiated
content type whenever a content stream is present. -/
theorem dereference_ok_shape (κ : Codec) (api : ChainApi) (didUrl ct : String)
    (qs : List ChainQuery) (r : DereferenceResult)
    (h : dereferenceNormalized κ api didUrl ct = (qs, Except.ok r)) :
    r.error ≠ some ResolutionError.representationNotSupported ∧
      (r.contentStream.isSome → r.contentType = some ct) := by
  unfold dereferenceNormalized at h
  split at h
  · simp only [Prod.mk.injEq] at h
    cases h.2
    exact ⟨by simp, by simp⟩
  · split at h
    · simp only [Prod.mk.injEq] at h
      exact absurd h.2 (by simp)
    · split at h
      · simp only [Prod.mk.injEq] at h
        cases h.2
        exact ⟨by simp, by simp⟩
      · simp only [Prod.mk.injEq] at h
        cases h.2
        exact ⟨by simp, by simp⟩

/-- Claim C8: for every accept value outside the supported set, `dereference`
proceeds exactly as if accept were `application/did+json` — it returns no
representation-related error and, on success with a content stream, reports
contentType `application/did+json` — whereas `resolveRepresentation` errors
with `representationNotSupported` on the same condition. -/
theorem dereference_unsupported_accept_falls_back_to_json
    (κ : Codec) (api : ChainApi) (didUrl accept : String)
    (h : ¬ isValidContentType accept) :
    dereference κ api didUrl accept = dereference κ api didUrl DID_JSON ∧
    (∀ qs r, dereference κ api didUrl accept = (qs, Except.ok r) →
      r.error ≠ some ResolutionError.representationNotSupported ∧
      (r.contentStream.isSome → r.contentType = some DID_JSON)) ∧
    resolveRepresentation κ api didUrl accept =
      ([], Except.ok
        { error := some ResolutionError.representationNotSupported
          didDocumentMetadata := emptyDocumentMetadata
          didDocumentStream := none }) := by
  have hacc : (if isValidContentType accept then accept else DID_JSON)
      = DID_JSON := if_neg (by simpa using h)
  have hfb : dereference κ api didUrl accept
      = dereference κ api didUrl DID_JSON := by
    unfold dereference
    rw [hacc, if_pos (by decide)]
  refine ⟨hfb, ?_, ?_⟩
  · intro qs r hr
    have hr' : dereferenceNormalized κ api didUrl DID_JSON
        = (qs, Except.ok r) := by
      rw [← hacc]
      exact hr
    exact dereference_ok_shape κ api didUrl DID_JSON qs r hr'
  · simp only [resolveRepresentation]
    rw [if_pos]
    simpa using h

/-- Witness for claim C8 at a concrete unsupported accept value. -/
theorem dereference_unsupported_accept_falls_back_witness :
    ¬ isValidContentType "text/html" ∧
      dereference specCodec emptyChainApi "did:kilt:4abc" "text/html" =
        dereference specCodec emptyChainApi "did:kilt:4abc" DID_JSON :=
  ⟨by decide,
    (dereference_unsupported_accept_falls_back_to_json specCodec emptyChainApi
      "did:kilt:4abc" "text/html" (by decide)).1⟩

/-- A selected candidate from a `did.submitDidCall` extrinsic recomputes to
the requested credential id and carries the extrinsic's DID origin. -/
theorem selectFromDidCallExtrinsic_some {env : CredEnv} {cid origin : String}
    {call : CCall} {ci : IPublicCredentialInput} {s : String}
    (h : selectFromDidCallExtrinsic env cid origin call
      = Except.ok (some (ci, s))) :
    env.getIdForCredential ci origin = cid ∧ s = origin := by
  unfold selectFromDidCallExtrinsic at h
  simp only [] at h
  cases hm : (extractPublicCredentialCreationCallsFromDidCall call).mapM
      (credentialInputFromChain env) with
  | error e =>
    rw [hm] at h
    simp [Bind.bind, Except.bind] at h
  | ok contents =>
    rw [hm] at h
    simp only [Bind.bind, Except.bind, pure, Except.pure, Except.ok.injEq] at h
    rcases Option.map_eq_some'.mp h with ⟨c, hc, hpair⟩
    cases hpair
    have := List.find?_some hc
    simp only [beq_iff_eq] at this
    exact ⟨this, rfl⟩

/-- A selected candidate from a batch extrinsic recomputes to the requested
credential id under its paired submitter. -/
theorem selectFromBatchExtrinsic_some {env : CredEnv} {cid : String}
    {batchCalls : List CCall} {ci : IPublicCredentialInput} {s : String}
    (h : selectFromBatchExtrinsic env cid batchCalls
      = Except.ok (some (ci, s))) :
    env.getIdForCredential ci s = cid := by
  unfold selectFromBatchExtrinsic at h
  simp only [] at h
  cases hm : ((batchCalls.flatMap extractDidCallsFromBatchCall).flatMap
      (fun dc => (extractPublicCredentialCreationCallsFromDidCall dc.2).map
        (fun c => (c, didFromChain dc.1)))).mapM
      (fun cs => (credentialInputFromChain env cs.1).map
        (fun ci => (ci, cs.2))) with
  | error e =>
    rw [hm] at h
    simp [Bind.bind, Except.bind] at h
  | ok contents =>
    rw [hm] at h
    simp only [Bind.bind, Except.bind, pure, Except.pure, Except.ok.injEq] at h
    have := List.find?_some h
    simp only [beq_iff_eq] at this
    exact this

/-- Claim C10: whenever `credentialFromChain` returns successfully, the
returned credential's `id` equals the requested credential id, and its
`blockNumber` and `revoked` fields are exactly those of the commitment
entry. -/
theorem credentialFromChain_postcondition (env : CredEnv)
    (credentialId : String) (entry? : Option CredentialEntry)
    (cred : IPublicCredential)
    (h : credentialFromChain env credentialId entry? = Except.ok cred) :
    cred.id = credentialId ∧
      ∃ e, entry? = some e ∧ cred.blockNumber = e.blockNumber ∧
        cred.revoked = e.revoked := by
  unfold credentialFromChain at h
  cases entry? with
  | none => simp at h
  | some entry =>
    simp only [Bind.bind, Except.bind] at h
    cases hr : retrievePublicCredentialCreationExtrinsicFromBlock env
        credentialId entry.blockNumber with
    | error e => rw [hr] at h; simp at h
    | ok extrinsic? =>
      rw [hr] at h
      cases extrinsic? with
      | none => simp at h
      | some extrinsic =>
        cases extrinsic with
        | utilityBatch kind batchCalls =>
          simp only at h
          cases hs : selectFromBatchExtrinsic env credentialId batchCalls with
          | error e => rw [hs] at h; simp [Except.bind] at h
          | ok selected =>
            rw [hs] at h
            cases selected with
            | none => simp [Except.bind] at h
            | some pair =>
              obtain ⟨ci, s⟩ := pair
              simp only [Except.bind, pure, Except.pure, Except.ok.injEq] at h
              cases h
              exact ⟨selectFromBatchExtrinsic_some hs, entry, rfl, rfl, rfl⟩
        | submitDidCall did call =>
          simp only at h
          cases hs : selectFromDidCallExtrinsic env credentialId
              (didFromChain did) call with
          | error e => rw [hs] at h; simp [Except.bind] at h
          | ok selected =>
            rw [hs] at h
            cases selected with
            | none => simp [Except.bind] at h
            | some pair =>
              obtain ⟨ci, s⟩ := pair
              simp only [Except.bind, pure, Except.pure, Except.ok.injEq] at h
              cases h
              obtain ⟨hid, hsub⟩ := selectFromDidCallExtrinsic_some hs
              subst hsub
              exact ⟨hid, entry, rfl, rfl, rfl⟩
        | publicCredentialsAdd c => simp [Except.bind] at h
        | other t => simp [Except.bind] at h

/-- Scanning the reversed list finds the last element of the original list
satisfying the predicate. -/
theorem find?_last_of_append {α : Type} {p : α → Bool} (pre post : List α)
    (x : α) (hx : p x = true) (hpost : ∀ y ∈ post, p y = false) :
    ((pre ++ x :: post).reverse).find? p = some x := by
  have hnone : post.reverse.find? p = none := by
    rw [List.find?_eq_none]
    intro y hy
    rw [List.mem_reverse] at hy
    simp [hpost y hy]
  rw [List.reverse_append, List.reverse_cons, List.find?_append,
    List.find?_append, hnone, List.find?_cons_of_pos _ hx]
  rfl

/-- Claim C3: when the winning extrinsic of the block contains several "add
public credential" calls whose recomputed identifier equals the requested
credential id, `credentialFromChain` selects the last such candidate in call
order and returns that call's content and its authorizing DID as attester —
both for a `did.submitDidCall` extrinsic and for a batch extrinsic. -/
theorem credentialFromChain_selects_last_matching_candidate (env : CredEnv)
    (credentialId : String) :
    (∀ (entry : CredentialEntry) (did : String) (call : CCall)
      (pre post : List IPublicCredentialInput) (cLast : IPublicCredentialInput),
      retrievePublicCredentialCreationExtrinsicFromBlock env credentialId
          entry.blockNumber
        = Except.ok (some (CCall.submitDidCall did call)) →
      (extractPublicCredentialCreationCallsFromDidCall call).mapM
          (credentialInputFromChain env)
        = Except.ok (pre ++ cLast :: post) →
      env.getIdForCredential cLast (didFromChain did) = credentialId →
      (∀ c ∈ post,
        env.getIdForCredential c (didFromChain did) ≠ credentialId) →
      credentialFromChain env credentialId (some entry)
        = Except.ok
          { claims := cLast.claims
            cTypeHash := cLast.cTypeHash
            delegationId := cLast.delegationId
            subject := cLast.subject
            attester := didFromChain did
            id := env.getIdForCredential cLast (didFromChain did)
            blockNumber := entry.blockNumber
            revoked := entry.revoked }) ∧
    (∀ (entry : CredentialEntry) (kind : BatchKind) (batchCalls : List CCall)
      (pre post : List (IPublicCredentialInput × String))
      (cLast : IPublicCredentialInput × String),
      retrievePublicCredentialCreationExtrinsicFromBlock env credentialId
          entry.blockNumber
        = Except.ok (some (CCall.utilityBatch kind batchCalls)) →
      ((batchCalls.flatMap extractDidCallsFromBatchCall).flatMap
          (fun dc => (extractPublicCredentialCreationCallsFromDidCall dc.2).map
            (fun c => (c, didFromChain dc.1)))).mapM
          (fun cs => (credentialInputFromChain env cs.1).map
            (fun ci => (ci, cs.2)))
        = Except.ok (pre ++ cLast :: post) →
      env.getIdForCredential cLast.1 cLast.2 = credentialId →
      (∀ cs ∈ post, env.getIdForCredential cs.1 cs.2 ≠ credentialId) →
      credentialFromChain env credentialId (some entry)
        = Except.ok
          { claims := cLast.1.claims
            cTypeHash := cLast.1.cTypeHash
            delegationId := cLast.1.delegationId
            subject := cLast.1.subject
            attester := cLast.2
            id := env.getIdForCredential cLast.1 cLast.2
            blockNumber := entry.blockNumber
            revoked := entry.revoked }) := by
  constructor
  · intro entry did call pre post cLast h₁ h₂ h₃ h₄
    have hfind : ((pre ++ cLast :: post).reverse).find?
        (fun c => env.getIdForCredential c (didFromChain did) == credentialId)
        = some cLast := by
      refine find?_last_of_append pre post cLast ?_ ?_
      · simp [h₃]
      · intro y hy
        simp [h₄ y hy]
    unfold credentialFromChain
    simp only [Bind.bind, Except.bind]
    rw [h₁]
    simp only []
    unfold selectFromDidCallExtrinsic
    simp only [] at h₂ ⊢
    rw [h₂]
    simp only [Bind.bind, Except.bind, pure, Except.pure]
    rw [hfind]
    rfl
  · intro entry kind batchCalls pre post cLast h₁ h₂ h₃ h₄
    have hfind : ((pre ++ cLast :: post).reverse).find?
        (fun cs => env.getIdForCredential cs.1 cs.2 == credentialId)
        = some cLast := by
      refine find?_last_of_append pre post cLast ?_ ?_
      · simp [h₃]
      · intro y hy
        simp [h₄ y hy]
    unfold credentialFromChain
    simp only [Bind.bind, Except.bind]
    rw [h₁]
    simp only []
    unfold selectFromBatchExtrinsic
    simp only [] at h₂ ⊢
    rw [h₂]
    simp only [Bind.bind, Except.bind, pure, Except.pure]
    rw [hfind]

/-- Witness for claim C3: a block with two "add public credential" calls with
equal recomputed identifiers; reconstruction returns the content of the later
call (claims `[2]`, not `[1]`). -/
theorem credentialFromChain_tie_break_witness :
    credentialFromChain (mkCredEnv doubleAddBlock) sampleCredId
        (some ⟨5, false⟩)
      = Except.ok
        { claims := [2]
          cTypeHash := "ct1"
          delegationId := none
          subject := sampleSubject
          attester := didFromChain "alice"
          id := sampleGetId ⟨[2], "ct1", none, sampleSubject⟩
            (didFromChain "alice")
          blockNumber := 5
          revoked := false } :=
  (credentialFromChain_selects_last_matching_candidate
      (mkCredEnv doubleAddBlock) sampleCredId).1
    ⟨5, false⟩ "alice"
    (CCall.utilityBatch BatchKind.batchAll
      [CCall.publicCredentialsAdd sampleChainCredA,
        CCall.publicCredentialsAdd sampleChainCredB])
    [⟨[1], "ct1", none, sampleSubject⟩] []
    ⟨[2], "ct1", none, sampleSubject⟩
    rfl rfl (by decide) (by simp)

/-- Claim C4: reconstruction fails with a `PublicCredentialError` — and never
returns a credential — whenever the block contains no successful extrinsic
with a matching "credential stored" event, or the winning extrinsic yields no
candidate whose recomputed identifier equals the requested credential id
(including when its shape admits no candidate extraction at all). -/
theorem credentialFromChain_fails_when_no_match (env : CredEnv)
    (credentialId : String) :
    (∀ (entry : CredentialEntry) (extrinsics : List ExtrinsicRecord),
      env.getBlock entry.blockNumber = some extrinsics →
      ((extrinsics.filter (fun e => ¬ e.dispatchError)).reverse.find?
        (fun e => e.events.any (eventMatchesCredential credentialId))) = none →
      credentialFromChain env credentialId (some entry)
        = Except.error SdkError.publicCredentialError) ∧
    (∀ (entry : CredentialEntry) (did : String) (call : CCall)
      (contents : List IPublicCredentialInput),
      retrievePublicCredentialCreationExtrinsicFromBlock env credentialId
          entry.blockNumber
        = Except.ok (some (CCall.submitDidCall did call)) →
      (extractPublicCredentialCreationCallsFromDidCall call).mapM
          (credentialInputFromChain env)
        = Except.ok contents →
      (∀ c ∈ contents,
        env.getIdForCredential c (didFromChain did) ≠ credentialId) →
      credentialFromChain env credentialId (some entry)
        = Except.error SdkError.publicCredentialError) ∧
    (∀ (entry : CredentialEntry) (kind : BatchKind) (batchCalls : List CCall)
      (contents : List (IPublicCredentialInput × String)),
      retrievePublicCredentialCreationExtrinsicFromBlock env credentialId
          entry.blockNumber
        = Except.ok (some (CCall.utilityBatch kind batchCalls)) →
      ((batchCalls.flatMap extractDidCallsFromBatchCall).flatMap
          (fun dc => (extractPublicCredentialCreationCallsFromDidCall dc.2).map
            (fun c => (c, didFromChain dc.1)))).mapM
          (fun cs => (credentialInputFromChain env cs.1).map
            (fun ci => (ci, cs.2)))
        = Except.ok contents →
      (∀ cs ∈ contents, env.getIdForCredential cs.1 cs.2 ≠ credentialId) →
      credentialFromChain env credentialId (some entry)
        = Except.error SdkError.publicCredentialError) ∧
    (∀ (entry : CredentialEntry) (cred : ChainCredential),
      retrievePublicCredentialCreationExtrinsicFromBlock env credentialId
          entry.blockNumber
        = Except.ok (some (CCall.publicCredentialsAdd cred)) →
      credentialFromChain env credentialId (some entry)
        = Except.error SdkError.publicCredentialError) ∧
    (∀ (entry : CredentialEntry) (t : Nat),
      retrievePublicCredentialCreationExtrinsicFromBlock env credentialId
          entry.blockNumber
        = Except.ok (some (CCall.other t)) →
      credentialFromChain env credentialId (some entry)
        = Except.error SdkError.publicCredentialError) := by
  refine ⟨?_, ?_, ?_, ?_, ?_⟩
  · intro entry extrinsics hblock hfind
    have hretr : retrievePublicCredentialCreationExtrinsicFromBlock env
        credentialId entry.blockNumber = Except.ok none := by
      unfold retrievePublicCredentialCreationExtrinsicFromBlock
      rw [hblock]
      simp only []
      rw [hfind]
      rfl
    unfold credentialFromChain
    simp only [Bind.bind, Except.bind]
    rw [hretr]
    rfl
  · intro entry did call contents h₁ h₂ h₃
    have hfind : (contents.reverse).find?
        (fun c => env.getIdForCredential c (didFromChain did) == credentialId)
        = none := by
      rw [List.find?_eq_none]
      intro y hy
      rw [List.mem_reverse] at hy
      simp [h₃ y hy]
    unfold credentialFromChain
    simp only [Bind.bind, Except.bind]
    rw [h₁]
    simp only []
    unfold selectFromDidCallExtrinsic
    simp only [] at h₂ ⊢
    rw [h₂]
    simp only [Bind.bind, Except.bind, pure, Except.pure]
    rw [hfind]
    rfl
  · intro entry kind batchCalls contents h₁ h₂ h₃
    have hfind : (contents.reverse).find?
        (fun cs => env.getIdForCredential cs.1 cs.2 == credentialId)
        = none := by
      rw [List.find?_eq_none]
      intro y hy
      rw [List.mem_reverse] at hy
      simp [h₃ y hy]
    unfold credentialFromChain
    simp only [Bind.bind, Except.bind]
    rw [h₁]
    simp only []
    unfold selectFromBatchExtrinsic
    simp only [] at h₂ ⊢
    rw [h₂]
    simp only [Bind.bind, Except.bind, pure, Except.pure]
    rw [hfind]
    rfl
  · intro entry cred h₁
    unfold credentialFromChain
    simp only [Bind.bind, Except.bind]
    rw [h₁]
  · intro entry t h₁
    unfold credentialFromChain
    simp only [Bind.bind, Except.bind]
    rw [h₁]

/-- Witness for claim C4: a commitment entry pointing at an empty block makes
reconstruction fail with `PublicCredentialError`. -/
theorem credentialFromChain_fails_witness :
    credentialFromChain (mkCredEnv []) sampleCredId (some ⟨3, false⟩)
      = Except.error SdkError.publicCredentialError :=
  (credentialFromChain_fails_when_no_match (mkCredEnv []) sampleCredId).1
    ⟨3, false⟩ [] rfl rfl

/-- Witness for claim C10 at a concrete block and entry. -/
theorem credentialFromChain_postcondition_witness :
    (⟨[1], "ct1", none, sampleSubject, didFromChain "alice", sampleCredId,
        7, true⟩ : IPublicCredential).id = sampleCredId ∧
      ∃ e, (some (⟨7, true⟩ : CredentialEntry)) = some e ∧
        (⟨[1], "ct1", none, sampleSubject, didFromChain "alice", sampleCredId,
          7, true⟩ : IPublicCredential).blockNumber = e.blockNumber ∧
        (⟨[1], "ct1", none, sampleSubject, didFromChain "alice", sampleCredId,
          7, true⟩ : IPublicCredential).revoked = e.revoked :=
  credentialFromChain_postcondition (mkCredEnv singleAddBlock) sampleCredId
    (some ⟨7, true⟩)
    ⟨[1], "ct1", none, sampleSubject, didFromChain "alice", sampleCredId,
      7, true⟩
    rfl

/-- `toChain` returns the parsed identifier. -/
theorem toChain_eq_address {did : String} {p : ParsedDid}
    (hp : parse did = some p) : toChain did = p.address := by
  unfold toChain
  rw [hp]

/-- A parse success with no fragment passes DID URI validation. -/
theorem isValidDidUri_of_parse {did : String} {p : ParsedDid}
    (hp : parse did = some p) (hfrag : p.fragment = none) :
    isValidDidUri did = true := by
  unfold isValidDidUri
  rw [hp]
  simp [hfrag]

/-- Claim C2: a light DID whose identifier also has a full DID document
on-chain and that is not in the deleted index resolves to
`canonicalId = <full DID uri>` with an id-only document (no verification
methods) — never the reconstructed light document. -/
theorem resolve_migrated_light_did (κ : Codec) (api : ChainApi)
    (did : String) (p : ParsedDid)
    (hp : parse did = some p) (hfrag : p.fragment = none)
    (hlight : p.ptype = DidType.light)
    (hdoc : (documentLookup api p.address).isSome)
    (hdel : api.didBlacklist p.address = false)
    (hlp : (parseDocumentFromLightDid κ did false).isOk) :
    resolve κ api did
      = ([ChainQuery.linkedInfo p.address, ChainQuery.blacklist p.address],
        Except.ok
          { error := none
            didDocumentMetadata :=
              { deactivated := none
                canonicalId := some (getFullDidUri did) }
            didDocument := some
              { id := did, authentication := [], verificationMethod := [],
                keyAgreement := none, service := none } })
      ∧ getFullDidUri did = "did:kilt:" ++ p.address := by
  obtain ⟨ld, hld⟩ : ∃ ld, parseDocumentFromLightDid κ did false
      = Except.ok ld := by
    cases heq : parseDocumentFromLightDid κ did false with
    | ok d => exact ⟨d, rfl⟩
    | error e => rw [heq] at hlp; simp [Except.isOk, Except.toBool] at hlp
  have htc := toChain_eq_address hp
  have hri : resolveInternal κ api did
      = ([ChainQuery.linkedInfo p.address, ChainQuery.blacklist p.address],
        Except.ok (some
          { document := some
              { id := did, authentication := [], verificationMethod := [],
                keyAgreement := none, service := none }
            documentMetadata :=
              { deactivated := none
                canonicalId := some (getFullDidUri did) } })) := by
    unfold resolveInternal
    rw [hp]
    simp only [htc]
    rw [if_neg (by rw [hlight]; simp), if_neg (by simp [hdel]),
      if_neg (by rw [hlight]; simp), hld]
    simp [hdoc]
  constructor
  · unfold resolve
    rw [if_neg (by simp [isValidDidUri_of_parse hp hfrag]), hri]
  · unfold getFullDidUri
    rw [hp]

/-- Witness for claim C2: a concrete migrated light DID. -/
theorem resolve_migrated_light_did_witness :
    resolve specCodec migratedChainApi "did:kilt:light:0140102"
      = ([ChainQuery.linkedInfo "40102", ChainQuery.blacklist "40102"],
        Except.ok
          { error := none
            didDocumentMetadata :=
              { deactivated := none
                canonicalId := some (getFullDidUri "did:kilt:light:0140102") }
            didDocument := some
              { id := "did:kilt:light:0140102", authentication := [],
                verificationMethod := [], keyAgreement := none,
                service := none } }) :=
  (resolve_migrated_light_did specCodec migratedChainApi
    "did:kilt:light:0140102"
    ⟨DidType.light, "did:kilt:light:0140102", "40102", 1, some "01", none,
      none⟩
    (by decide) rfl rfl rfl rfl rfl).1

/-- Claim C5: a DID in the deleted index resolves to `deactivated = true`
with no document and no error, a full DID absent from both the linked-info
query and the deleted index resolves to error `notFound` with empty document
metadata, and the two outcomes are different result shapes. -/
theorem resolve_deletion_distinguishability (κ : Codec) :
    (∀ (api : ChainApi) (did : String) (p : ParsedDid),
      parse did = some p → p.fragment = none →
      api.didBlacklist p.address = true →
      (p.ptype = DidType.full → documentLookup api p.address = none) →
      resolve κ api did
        = ([ChainQuery.linkedInfo p.address, ChainQuery.blacklist p.address],
          Except.ok
            { error := none
              didDocumentMetadata :=
                { deactivated := some true, canonicalId := none }
              didDocument := none })) ∧
    (∀ (api : ChainApi) (did : String) (p : ParsedDid),
      parse did = some p → p.fragment = none →
      p.ptype = DidType.full →
      documentLookup api p.address = none →
      api.didBlacklist p.address = false →
      resolve κ api did
        = ([ChainQuery.linkedInfo p.address, ChainQuery.blacklist p.address],
          Except.ok
            { error := some ResolutionError.notFound
              didDocumentMetadata := emptyDocumentMetadata
              didDocument := none })) ∧
    ((Except.ok
        { error := none
          didDocumentMetadata := { deactivated := some true, canonicalId := none }
          didDocument := none } : Except SdkError ResolutionResult)
      ≠ Except.ok
        { error := some ResolutionError.notFound
          didDocumentMetadata := emptyDocumentMetadata
          didDocument := none }) := by
  refine ⟨?_, ?_, by decide⟩
  · intro api did p hp hfrag hdel hdoc
    have htc := toChain_eq_address hp
    have hri : resolveInternal κ api did
        = ([ChainQuery.linkedInfo p.address, ChainQuery.blacklist p.address],
          Except.ok (some
            { document := none
              documentMetadata :=
                { deactivated := some true, canonicalId := none } })) := by
      unfold resolveInternal
      rw [hp]
      simp only [htc]
      have hcond : ¬ (p.ptype = DidType.full
          ∧ (documentLookup api p.address).isSome = true) := by
        rintro ⟨hfull, hsome⟩
        rw [hdoc hfull] at hsome
        simp at hsome
      rw [if_neg hcond, if_pos (show api.didBlacklist p.address = true
        from hdel)]
      rfl
    unfold resolve
    rw [if_neg (by simp [isValidDidUri_of_parse hp hfrag]), hri]
  · intro api did p hp hfrag hfull hdoc hdel
    have htc := toChain_eq_address hp
    have hri : resolveInternal κ api did
        = ([ChainQuery.linkedInfo p.address, ChainQuery.blacklist p.address],
          Except.ok none) := by
      unfold resolveInternal
      rw [hp]
      simp only [htc]
      rw [if_neg (by rw [hdoc]; simp), if_neg (by simp [hdel]),
        if_pos hfull]
      rfl
    unfold resolve
    rw [if_neg (by simp [isValidDidUri_of_parse hp hfrag]), hri]

/-- Witness for claim C5: a deleted DID and an unknown full DID on concrete
adapters. -/
theorem resolve_deletion_distinguishability_witness :
    resolve specCodec deletedChainApi "did:kilt:4abc"
      = ([ChainQuery.linkedInfo "4abc", ChainQuery.blacklist "4abc"],
        Except.ok
          { error := none
            didDocumentMetadata :=
              { deactivated := some true, canonicalId := none }
            didDocument := none })
    ∧ resolve specCodec emptyChainApi "did:kilt:4abc"
      = ([ChainQuery.linkedInfo "4abc", ChainQuery.blacklist "4abc"],
        Except.ok
          { error := some ResolutionError.notFound
            didDocumentMetadata := emptyDocumentMetadata
            didDocument := none }) :=
  ⟨(resolve_deletion_distinguishability specCodec).1 deletedChainApi
      "did:kilt:4abc"
      ⟨DidType.full, "did:kilt:4abc", "4abc", 1, none, none, none⟩
      (by decide) rfl rfl (fun _ => rfl),
    (resolve_deletion_distinguishability specCodec).2.1 emptyChainApi
      "did:kilt:4abc"
      ⟨DidType.full, "did:kilt:4abc", "4abc", 1, none, none, none⟩
      (by decide) rfl rfl rfl rfl⟩

/-- Claim C6: an input failing DID URI validation yields the structured
`invalidDid` result (not an exception), and an exception of the linked-info
query inside the document-lookup step is caught and treated exactly as "no
document found": resolution is unchanged when the raising query is replaced
by one that succeeds with no document. -/
theorem resolve_failure_policy (κ : Codec) :
    (∀ (api : ChainApi) (s : String), ¬ isValidDidUri s →
      resolve κ api s
        = ([], Except.ok
          { error := some ResolutionError.invalidDid
            didDocumentMetadata := emptyDocumentMetadata
            didDocument := none })) ∧
    (∀ (api : ChainApi) (did : String),
      api.linkedInfo (toChain did) = QueryResult.exn →
      resolve κ api did
        = resolve κ
          { api with linkedInfo := fun i =>
              if i = toChain did then QueryResult.ok none
              else api.linkedInfo i }
          did) := by
  constructor
  · intro api s h
    unfold resolve
    rw [if_pos (by simpa using h)]
  · intro api did hexn
    have hlookup : ∀ i, documentLookup api i
        = documentLookup
          { api with linkedInfo := fun i =>
              if i = toChain did then QueryResult.ok none
              else api.linkedInfo i } i := by
      intro i
      unfold documentLookup
      by_cases hi : i = toChain did
      · subst hi
        rw [hexn]
        simp
      · simp [hi]
    unfold resolve
    unfold resolveInternal
    cases hp : parse did with
    | none => rfl
    | some p =>
      simp only [hlookup]

/-- Witness for claim C6: a malformed DID string, and an adapter whose
linked-info query raises. -/
theorem resolve_failure_policy_witness :
    resolve specCodec emptyChainApi "banana"
      = ([], Except.ok
        { error := some ResolutionError.invalidDid
          didDocumentMetadata := emptyDocumentMetadata
          didDocument := none })
    ∧ resolve specCodec emptyChainApi "did:kilt:4abc"
      = resolve specCodec
        { emptyChainApi with linkedInfo := fun i =>
            if i = (toChain "did:kilt:4abc") then QueryResult.ok none
            else emptyChainApi.linkedInfo i }
        "did:kilt:4abc" :=
  ⟨(resolve_failure_policy specCodec).1 emptyChainApi "banana" (by decide),
    (resolve_failure_policy specCodec).2 emptyChainApi "did:kilt:4abc" rfl⟩

/-- Claim C9: for an input of exactly one ed25519 authentication verification
method, no key agreement and no services, the created document's id is
`did:kilt:light:01` followed by the SS58 address derived from the key, with no
trailing encoded-details segment; with an sr25519 key the code is `00`. -/
theorem createLightDidDocument_minimal_uri_shape (κ : Codec) (i c : String)
    (pk : List Nat) :
    createLightDidDocument κ
        { authentication := ⟨i, c, ⟨KeyType.ed25519, pk⟩⟩,
          keyAgreement := none, service := none }
      = Except.ok
        { id := "did:kilt:light:01" ++ κ.ss58Encode pk
          authentication := [authenticationKeyId]
          verificationMethod :=
            [⟨authenticationKeyId, "did:kilt:light:01" ++ κ.ss58Encode pk,
              ⟨KeyType.ed25519, pk⟩⟩]
          keyAgreement := none
          service := none }
    ∧ createLightDidDocument κ
        { authentication := ⟨i, c, ⟨KeyType.sr25519, pk⟩⟩,
          keyAgreement := none, service := none }
      = Except.ok
        { id := "did:kilt:light:00" ++ κ.ss58Encode pk
          authentication := [authenticationKeyId]
          verificationMethod :=
            [⟨authenticationKeyId, "did:kilt:light:00" ++ κ.ss58Encode pk,
              ⟨KeyType.sr25519, pk⟩⟩]
          keyAgreement := none
          service := none } := by
  constructor <;>
    simp [createLightDidDocument, validateCreateDocumentInput,
      serializeAdditionalLightDidDetails, objectToSerialize,
      verificationKeyTypeToLightDidEncoding, decodeMultikeyVerificationMethod,
      getAddressByVerificationMethod, encodeVerificationMethodToMultiKey,
      Bind.bind, Except.bind, pure, Except.pure, String.append_empty]

/-! ### Parser lemmas for the round-trip proof -/

theorem stripPref_pref_append (p rest : List Char) :
    stripPref p (p ++ rest) = some rest := by
  induction p with
  | nil => rfl
  | cons c cs ih => simp [stripPref, ih]

theorem takeWhile_eq_self_of_all {l : List Char} {p : Char → Bool}
    (h : ∀ a ∈ l, p a = true) : l.takeWhile p = l := by
  induction l with
  | nil => rfl
  | cons c cs ih =>
    rw [List.takeWhile_cons, if_pos (h c (by simp))]
    rw [ih (fun a ha => h a (by simp [ha]))]

theorem dropWhile_eq_nil_of_all {l : List Char} {p : Char → Bool}
    (h : ∀ a ∈ l, p a = true) : l.dropWhile p = [] := by
  induction l with
  | nil => rfl
  | cons c cs ih =>
    rw [List.dropWhile_cons, if_pos (h c (by simp))]
    exact ih (fun a ha => h a (by simp [ha]))

theorem takeWhile_append_cons_stop {l₁ l₂ : List Char} {p : Char → Bool}
    {b : Char} (h₁ : ∀ a ∈ l₁, p a = true) (hb : p b = false) :
    (l₁ ++ b :: l₂).takeWhile p = l₁ := by
  rw [List.takeWhile_append_of_pos h₁, List.takeWhile_cons, hb]
  simp

theorem dropWhile_append_cons_stop {l₁ l₂ : List Char} {p : Char → Bool}
    {b : Char} (h₁ : ∀ a ∈ l₁, p a = true) (hb : p b = false) :
    (l₁ ++ b :: l₂).dropWhile p = b :: l₂ := by
  rw [List.dropWhile_append]
  have : l₁.dropWhile p = [] := dropWhile_eq_nil_of_all h₁
  rw [this]
  simp [List.dropWhile_cons, hb]

/-- `parseVersionSegment` is the identity (version 1) when the input does not
start with `v`. -/
theorem parseVersionSegment_not_v {c : Char} (hv : c ≠ 'v')
    (rest : List Char) :
    parseVersionSegment (c :: rest) = (1, c :: rest) := by
  simp only [parseVersionSegment]
  rw [if_neg hv]

/-- Parsing a light DID URI of the shape
`did:kilt:light:<c₁c₂><addr>` (no details, no fragment). -/
theorem parse_light_concat_nodetails (u : String) (c₁ c₂ : Char)
    (addr : List Char)
    (hu : u.data = "did:kilt:light:".data ++ c₁ :: c₂ :: addr)
    (h₁ : c₁.isDigit = true) (h₂ : c₂.isDigit = true) (hv : c₁ ≠ 'v')
    (haddr : addr ≠ [])
    (haddrc : ∀ ch ∈ addr, ch ≠ ':' ∧ ch ≠ '#') :
    parse u = some ⟨DidType.light, u, String.mk addr, 1,
      some (String.mk [c₁, c₂]), none, none⟩ := by
  have hsplit : "did:kilt:light:".data = "did:kilt:".data ++ "light:".data :=
    by decide
  have hdid : String.mk ("did:kilt:".data
      ++ ("light:".data ++ c₁ :: c₂ :: addr)) = u := by
    apply String.ext
    rw [hu, hsplit, List.append_assoc]
  have hnohash : ∀ ch ∈ "light:".data ++ c₁ :: c₂ :: addr,
      (decide (ch ≠ '#')) = true := by
    intro ch hch
    simp only [decide_eq_true_eq]
    intro hceq
    subst hceq
    rcases List.mem_append.mp hch with hch | hch
    · revert hch
      decide
    · rcases List.mem_cons.mp hch with hch | hch
      · exact absurd h₁ (by rw [← hch]; decide)
      · rcases List.mem_cons.mp hch with hch | hch
        · exact absurd h₂ (by rw [← hch]; decide)
        · exact (haddrc '#' hch).2 rfl
  unfold parse
  rw [hu, hsplit, List.append_assoc, stripPref_pref_append]
  simp only []
  rw [takeWhile_eq_self_of_all hnohash, dropWhile_eq_nil_of_all hnohash,
    stripPref_pref_append]
  simp only [List.isEmpty_nil]
  rw [parseVersionSegment_not_v hv]
  simp only []
  rw [if_pos (by exact ⟨h₁, h₂⟩)]
  rw [takeWhile_eq_self_of_all
    (fun a ha => by simp [(haddrc a ha).1]),
    dropWhile_eq_nil_of_all (fun a ha => by simp [(haddrc a ha).1])]
  rw [if_neg (by simpa using haddr)]
  simp only []
  rw [hdid]
  simp

/-- Parsing a light DID URI of the shape
`did:kilt:light:<c₁c₂><addr>:<det>` (details, no fragment). -/
theorem parse_light_concat_details (u : String) (c₁ c₂ : Char)
    (addr det : List Char)
    (hu : u.data = "did:kilt:light:".data ++ c₁ :: c₂ :: (addr ++ ':' :: det))
    (h₁ : c₁.isDigit = true) (h₂ : c₂.isDigit = true) (hv : c₁ ≠ 'v')
    (haddr : addr ≠ [])
    (haddrc : ∀ ch ∈ addr, ch ≠ ':' ∧ ch ≠ '#')
    (hdet : det ≠ [])
    (hdetc : ∀ ch ∈ det, ch ≠ '#') :
    parse u = some ⟨DidType.light, u, String.mk addr, 1,
      some (String.mk [c₁, c₂]), some (String.mk det), none⟩ := by
  have hsplit : "did:kilt:light:".data = "did:kilt:".data ++ "light:".data :=
    by decide
  have hdid : String.mk ("did:kilt:".data
      ++ ("light:".data ++ c₁ :: c₂ :: (addr ++ ':' :: det))) = u := by
    apply String.ext
    rw [hu, hsplit, List.append_assoc]
  have hnohash : ∀ ch ∈ "light:".data ++ c₁ :: c₂ :: (addr ++ ':' :: det),
      (decide (ch ≠ '#')) = true := by
    intro ch hch
    simp only [decide_eq_true_eq]
    intro hceq
    subst hceq
    rcases List.mem_append.mp hch with hch | hch
    · revert hch
      decide
    · rcases List.mem_cons.mp hch with hch | hch
      · exact absurd h₁ (by rw [← hch]; decide)
      · rcases List.mem_cons.mp hch with hch | hch
        · exact absurd h₂ (by rw [← hch]; decide)
        · rcases List.mem_append.mp hch with hch | hch
          · exact (haddrc '#' hch).2 rfl
          · rcases List.mem_cons.mp hch with hch | hch
            · exact absurd hch (by decide)
            · exact hdetc '#' hch rfl
  unfold parse
  rw [hu, hsplit, List.append_assoc, stripPref_pref_append]
  simp only []
  rw [takeWhile_eq_self_of_all hnohash, dropWhile_eq_nil_of_all hnohash,
    stripPref_pref_append]
  simp only [List.isEmpty_nil]
  rw [parseVersionSegment_not_v hv]
  simp only []
  rw [if_pos (by exact ⟨h₁, h₂⟩)]
  rw [takeWhile_append_cons_stop
      (fun a ha => by simp [(haddrc a ha).1]) (by simp),
    dropWhile_append_cons_stop
      (fun a ha => by simp [(haddrc a ha).1]) (by simp)]
  rw [if_neg (by simpa using haddr)]
  simp only []
  rw [if_neg (by simpa using hdet)]
  rw [hdid]
  simp

/-! ### Round-trip of the light DID codec -/

/-- The per-service validation succeeds on a list of services whose ids are
non-reserved nonempty fragments. -/
theorem validateServicesList_ok {l : List Service}
    (h : ∀ s ∈ l, s.id ≠ "#authentication" ∧ s.id ≠ "#encryption" ∧
      ∃ t, t ≠ [] ∧ s.id.data = '#' :: t) :
    validateServicesList l = Except.ok () := by
  induction l with
  | nil => rfl
  | cons s rest ih =>
    obtain ⟨h₁, h₂, t, ht, hid⟩ := h s (by simp)
    have hns : validateNewService s = Except.ok () := by
      unfold validateNewService
      cases t with
      | nil => exact absurd rfl ht
      | cons c cs =>
        rw [hid]
        simp
    unfold validateServicesList
    rw [if_neg (by simp [h₁, h₂])]
    simp only [Bind.bind, Except.bind, hns]
    exact ih (fun a ha => h a (by simp [ha]))

/-- Re-prefixing `#` after `fragmentIdToChain` is the identity on fragment
ids. -/
theorem hash_fragmentIdToChain {s : String} {t : List Char}
    (h : s.data = '#' :: t) : "#" ++ fragmentIdToChain s = s := by
  unfold fragmentIdToChain
  rw [h]
  simp only [if_pos rfl]
  apply String.ext
  rw [String.data_append, h]
  rfl

/-- Deserialization inverts the per-service serialization on services with
fragment-shaped ids. -/
theorem normalize_serialize_services (l : List Service)
    (h : ∀ s ∈ l, ∃ t, s.id.data = '#' :: t) :
    (l.map (fun s =>
      ({ id := fragmentIdToChain s.id
         type := some s.type
         serviceEndpoint := some s.serviceEndpoint
         types := none
         urls := none } : SerializedService))).map
      (fun ss =>
        ({ id := "#" ++ ss.id
           type := (ss.type.orElse (fun _ => ss.types)).getD []
           serviceEndpoint :=
             (ss.serviceEndpoint.orElse (fun _ => ss.urls)).getD [] }
          : Service)) = l := by
  induction l with
  | nil => rfl
  | cons s rest ih =>
    obtain ⟨t, hid⟩ := h s (by simp)
    simp only [List.map_cons, List.cons.injEq]
    refine ⟨?_, ih (fun a ha => h a (by simp [ha]))⟩
    cases s with
    | mk sid stype sse => simp [hash_fragmentIdToChain hid]

/-- `createLightDidDocument` returns exactly `builtLightDocument` on valid
inputs. -/
theorem createLightDidDocument_builds (κ : Codec)
    (input : CreateDocumentInput) (akt : KeyType) (apk : List Nat)
    (enc : String)
    (hauth : decodeMultikeyVerificationMethod input.authentication
      = ⟨akt, apk⟩)
    (henc : verificationKeyTypeToLightDidEncoding akt = some enc)
    (hka : ∀ ka, input.keyAgreement = some ka →
      encryptionKeyTypes.contains
        (decodeMultikeyVerificationMethod ka).keyType = true)
    (hsvc : ∀ l, input.service = some l →
      validateServicesList l = Except.ok ()) :
    createLightDidDocument κ input
      = Except.ok (builtLightDocument κ input akt apk enc) := by
  have hval : validateCreateDocumentInput input = Except.ok () := by
    unfold validateCreateDocumentInput
    rw [hauth]
    simp only [henc, Option.isNone_some, Bind.bind, Except.bind, pure,
      Except.pure]
    rw [if_neg (by simp)]
    cases hk : input.keyAgreement with
    | none =>
      simp only []
      cases hs : input.service with
      | none => rfl
      | some l => simpa using hsvc l hs
    | some ka =>
      simp only []
      rw [if_neg (not_not_intro (hka ka hk))]
      cases hs : input.service with
      | none => rfl
      | some l => simpa using hsvc l hs
  unfold createLightDidDocument builtLightDocument
  simp only [hval, Bind.bind, Except.bind, hauth, henc,
    getAddressByVerificationMethod]
  cases hk : input.keyAgreement with
  | none => rfl
  | some ka => rfl

/-- Counterexample to claim C1 as stated: the input with one ed25519
authentication key and an empty service list is accepted by
`createLightDidDocument` (producing a document with `service = some []`),
but parsing the resulting URI yields a document with `service = none` — the
round-trip is not the identity on this valid input. -/
theorem lightDid_roundtrip_counterexample :
    createLightDidDocument specCodec
        { authentication := ⟨"a", "c", ⟨KeyType.ed25519, [1, 2]⟩⟩,
          keyAgreement := none, service := some [] }
      = Except.ok
        { id := "did:kilt:light:0140102"
          authentication := [authenticationKeyId]
          verificationMethod :=
            [⟨authenticationKeyId, "did:kilt:light:0140102",
              ⟨KeyType.ed25519, [1, 2]⟩⟩]
          keyAgreement := none
          service := some [] }
    ∧ parseDocumentFromLightDid specCodec "did:kilt:light:0140102" true
      = Except.ok
        { id := "did:kilt:light:0140102"
          authentication := [authenticationKeyId]
          verificationMethod :=
            [⟨authenticationKeyId, "did:kilt:light:0140102",
              ⟨KeyType.ed25519, [1, 2]⟩⟩]
          keyAgreement := none
          service := none }
    ∧ parseDocumentFromLightDid specCodec "did:kilt:light:0140102" true
      ≠ Except.ok
        { id := "did:kilt:light:0140102"
          authentication := [authenticationKeyId]
          verificationMethod :=
            [⟨authenticationKeyId, "did:kilt:light:0140102",
              ⟨KeyType.ed25519, [1, 2]⟩⟩]
          keyAgreement := none
          service := some [] } :=
  ⟨by decide, by decide, by decide⟩

/-- Deserialization inverts serialization of the auxiliary light-DID details,
given the codec round-trip laws at the serialized structure. -/
theorem deserialize_serialize_details (κ : Codec)
    (ka : Option VerificationMethod) (svc : Option (List Service))
    (hb58 : κ.base58Decode (κ.base58Encode
        (0 :: κ.cborEncodeDetails (objectToSerialize ka svc)))
      = some (0 :: κ.cborEncodeDetails (objectToSerialize ka svc)))
    (hcbor : κ.cborDecodeDetails
        (κ.cborEncodeDetails (objectToSerialize ka svc))
      = some (objectToSerialize ka svc))
    (hsvcfrag : ∀ l, svc = some l → l ≠ [] ∧
      ∀ s ∈ l, ∃ t, s.id.data = '#' :: t) :
    deserializeAdditionalLightDidDetails κ
        (κ.base58Encode
          (0 :: κ.cborEncodeDetails (objectToSerialize ka svc))) 1
      = Except.ok (ka, svc) := by
  unfold deserializeAdditionalLightDidDetails
  rw [if_neg (by simp)]
  simp only [Bind.bind, Except.bind, pure, Except.pure]
  rw [hb58]
  simp only []
  rw [if_neg (by simp)]
  rw [hcbor]
  simp only []
  unfold objectToSerialize
  simp only []
  cases hs : svc with
  | none => rfl
  | some l =>
    obtain ⟨hne, hfrag⟩ := hsvcfrag l hs
    simp only []
    rw [if_pos (by simpa [List.length_pos] using hne)]
    simp only [Option.map_some']
    rw [normalize_serialize_services l hfrag]

/-- Claim C1 (amended): for every valid input to `createLightDidDocument`
(one ed25519 or sr25519 authentication key, optionally one approved
key-agreement key, service endpoints with non-reserved fragment ids and — the
amendment — a nonempty service list when one is present), parsing the URI of
the created document returns a document structurally equal to the created
one.  The external SS58 / base58 / CBOR codecs are assumed to round-trip at
the encoded values, and their output alphabets to avoid `:` and `#`. -/
theorem lightDid_roundtrip (κ : Codec) (input : CreateDocumentInput)
    (akt : KeyType) (apk : List Nat) (enc : String)
    (hauth : decodeMultikeyVerificationMethod input.authentication
      = ⟨akt, apk⟩)
    (henc : verificationKeyTypeToLightDidEncoding akt = some enc)
    (hka : ∀ ka, input.keyAgreement = some ka →
      encryptionKeyTypes.contains
        (decodeMultikeyVerificationMethod ka).keyType = true)
    (hsvc : ∀ l, input.service = some l → l ≠ [] ∧
      ∀ s ∈ l, s.id ≠ "#authentication" ∧ s.id ≠ "#encryption" ∧
        ∃ t, t ≠ [] ∧ s.id.data = '#' :: t)
    (hss : κ.ss58Decode (κ.ss58Encode apk) = some apk)
    (haddr1 : (κ.ss58Encode apk).data ≠ [])
    (haddr2 : ∀ ch ∈ (κ.ss58Encode apk).data, ch ≠ ':' ∧ ch ≠ '#')
    (hb58 : κ.base58Decode (κ.base58Encode
        (0 :: κ.cborEncodeDetails
          (objectToSerialize input.keyAgreement input.service)))
      = some (0 :: κ.cborEncodeDetails
          (objectToSerialize input.keyAgreement input.service)))
    (hcbor : κ.cborDecodeDetails (κ.cborEncodeDetails
        (objectToSerialize input.keyAgreement input.service))
      = some (objectToSerialize input.keyAgreement input.service))
    (hdet1 : (κ.base58Encode (0 :: κ.cborEncodeDetails
        (objectToSerialize input.keyAgreement input.service))).data ≠ [])
    (hdet2 : ∀ ch ∈ (κ.base58Encode (0 :: κ.cborEncodeDetails
        (objectToSerialize input.keyAgreement input.service))).data,
      ch ≠ '#') :
    ∀ doc, createLightDidDocument κ input = Except.ok doc →
      parseDocumentFromLightDid κ doc.id true = Except.ok doc := by
  obtain ⟨c₁, c₂, hencmk, hd₁, hd₂, hvne, hback⟩ :
      ∃ c₁ c₂, enc = String.mk [c₁, c₂] ∧ c₁.isDigit = true
        ∧ c₂.isDigit = true ∧ c₁ ≠ 'v'
        ∧ lightDidEncodingToVerificationKeyType enc = some akt := by
    cases akt with
    | sr25519 =>
      have h : "00" = enc := by injection henc
      subst h
      exact ⟨'0', '0', rfl, by decide, by decide, by decide, rfl⟩
    | ed25519 =>
      have h : "01" = enc := by injection henc
      subst h
      exact ⟨'0', '1', rfl, by decide, by decide, by decide, rfl⟩
    | ecdsa => exact absurd henc (by simp [verificationKeyTypeToLightDidEncoding])
    | x25519 => exact absurd henc (by simp [verificationKeyTypeToLightDidEncoding])
  have hsvcval : ∀ l, input.service = some l →
      validateServicesList l = Except.ok () :=
    fun l hl => validateServicesList_ok ((hsvc l hl).2)
  have hcreate := createLightDidDocument_builds κ input akt apk enc hauth henc
    hka hsvcval
  intro doc hdoc
  rw [hcreate] at hdoc
  have hdoc' : builtLightDocument κ input akt apk enc = doc := by
    injection hdoc
  subst hdoc'
  cases hser : serializeAdditionalLightDidDetails κ input.keyAgreement
      input.service with
  | none =>
    -- no auxiliary details: both optional fields are absent
    have hempty : input.keyAgreement = none ∧ input.service = none := by
      unfold serializeAdditionalLightDidDetails at hser
      by_cases hc : (objectToSerialize input.keyAgreement input.service).e
          = none ∧ (objectToSerialize input.keyAgreement input.service).s
          = none
      · refine ⟨hc.1, ?_⟩
        have hs := hc.2
        unfold objectToSerialize at hs
        cases hl : input.service with
        | none => rfl
        | some l =>
          rw [hl] at hs
          simp only [] at hs
          rcases Nat.lt_or_ge 0 l.length with hlen | hlen
          · rw [if_pos hlen] at hs
            exact absurd hs (by simp)
          · have : l = [] := List.eq_nil_of_length_eq_zero
              (Nat.le_antisymm (Nat.le_of_lt_succ (Nat.lt_succ_of_le hlen))
                (Nat.zero_le _))
            exact absurd this (hsvc l hl).1
      · rw [if_neg hc] at hser
        exact absurd hser (by simp)
    obtain ⟨hkan, hsvn⟩ := hempty
    have hbuilt : builtLightDocument κ input akt apk enc
        = { id := "did:kilt:light:" ++ enc ++ κ.ss58Encode apk
            authentication := [authenticationKeyId]
            verificationMethod :=
              [encodeVerificationMethodToMultiKey
                ("did:kilt:light:" ++ enc ++ κ.ss58Encode apk)
                authenticationKeyId ⟨akt, apk⟩]
            keyAgreement := none
            service := none } := by
      unfold builtLightDocument
      rw [hser, hkan, hsvn]
      simp only []
      rw [String.append_empty]
    rw [hbuilt]
    have hu : ("did:kilt:light:" ++ enc ++ κ.ss58Encode apk).data
        = "did:kilt:light:".data ++ c₁ :: c₂ :: (κ.ss58Encode apk).data := by
      rw [String.data_append, String.data_append, hencmk,
        List.append_assoc]
      rfl
    have hp := parse_light_concat_nodetails
      ("did:kilt:light:" ++ enc ++ κ.ss58Encode apk) c₁ c₂
      (κ.ss58Encode apk).data hu hd₁ hd₂ hvne haddr1 haddr2
    unfold parseDocumentFromLightDid
    rw [hp]
    simp only [Bind.bind, Except.bind, pure, Except.pure]
    rw [if_neg (by simp), if_neg (by simp)]
    simp only [Option.some_bind]
    rw [← hencmk, hback]
    simp only []
    have hmkaddr : String.mk (κ.ss58Encode apk).data = κ.ss58Encode apk := rfl
    rw [hmkaddr, hss]
    simp only []
    have hcreate' := createLightDidDocument_builds κ
      { authentication := encodeVerificationMethodToMultiKey
          ("did:kilt:light:" ++ enc ++ κ.ss58Encode apk)
          authenticationKeyId ⟨akt, apk⟩
        keyAgreement := none, service := none } akt apk enc rfl henc
      (by intro ka h; cases h) (by intro l h; cases h)
    rw [hcreate']
    unfold builtLightDocument
    simp only []
    rw [show serializeAdditionalLightDidDetails κ none none = none from rfl]
    simp only []
    rw [String.append_empty]
  | some det =>
    -- auxiliary details present
    have hdetval : det = κ.base58Encode
        (0 :: κ.cborEncodeDetails
          (objectToSerialize input.keyAgreement input.service)) := by
      unfold serializeAdditionalLightDidDetails at hser
      by_cases hc : (objectToSerialize input.keyAgreement input.service).e
          = none ∧ (objectToSerialize input.keyAgreement input.service).s
          = none
      · rw [if_pos hc] at hser
        exact absurd hser (by simp)
      · rw [if_neg hc] at hser
        injection hser with h
        exact h.symm
    subst hdetval
    have hbuilt : builtLightDocument κ input akt apk enc
        = { id := "did:kilt:light:" ++ enc ++ κ.ss58Encode apk ++
              (":" ++ κ.base58Encode
                (0 :: κ.cborEncodeDetails
                  (objectToSerialize input.keyAgreement input.service)))
            authentication := [authenticationKeyId]
            verificationMethod :=
              match input.keyAgreement with
              | none =>
                [encodeVerificationMethodToMultiKey
                  ("did:kilt:light:" ++ enc ++ κ.ss58Encode apk ++
                    (":" ++ κ.base58Encode
                      (0 :: κ.cborEncodeDetails
                        (objectToSerialize input.keyAgreement
                          input.service))))
                  authenticationKeyId ⟨akt, apk⟩]
              | some ka =>
                [encodeVerificationMethodToMultiKey
                  ("did:kilt:light:" ++ enc ++ κ.ss58Encode apk ++
                    (":" ++ κ.base58Encode
                      (0 :: κ.cborEncodeDetails
                        (objectToSerialize input.keyAgreement
                          input.service))))
                  authenticationKeyId ⟨akt, apk⟩,
                  encodeVerificationMethodToMultiKey
                    ("did:kilt:light:" ++ enc ++ κ.ss58Encode apk ++
                      (":" ++ κ.base58Encode
                        (0 :: κ.cborEncodeDetails
                          (objectToSerialize input.keyAgreement
                            input.service))))
                    encryptionKeyId (decodeMultikeyVerificationMethod ka)]
            keyAgreement :=
              match input.keyAgreement with
              | none => none
              | some _ => some [encryptionKeyId]
            service := input.service } := by
      unfold builtLightDocument
      rw [hser]
    rw [hbuilt]
    have hu : ("did:kilt:light:" ++ enc ++ κ.ss58Encode apk ++
          (":" ++ κ.base58Encode
            (0 :: κ.cborEncodeDetails
              (objectToSerialize input.keyAgreement input.service)))).data
        = "did:kilt:light:".data ++ c₁ :: c₂ ::
          ((κ.ss58Encode apk).data ++ ':' ::
            (κ.base58Encode
              (0 :: κ.cborEncodeDetails
                (objectToSerialize input.keyAgreement
                  input.service))).data) := by
      rw [String.data_append, String.data_append, String.data_append,
        hencmk, List.append_assoc, List.append_assoc]
      rfl
    have hp := parse_light_concat_details _ c₁ c₂
      (κ.ss58Encode apk).data
      (κ.base58Encode
        (0 :: κ.cborEncodeDetails
          (objectToSerialize input.keyAgreement input.service))).data
      hu hd₁ hd₂ hvne haddr1 haddr2 hdet1 hdet2
    unfold parseDocumentFromLightDid
    rw [hp]
    simp only [Bind.bind, Except.bind, pure, Except.pure]
    rw [if_neg (by simp), if_neg (by simp)]
    simp only [Option.some_bind]
    rw [← hencmk, hback]
    simp only []
    have hmkaddr : String.mk (κ.ss58Encode apk).data = κ.ss58Encode apk := rfl
    rw [hmkaddr, hss]
    simp only []
    have hmkdet : String.mk (κ.base58Encode
        (0 :: κ.cborEncodeDetails
          (objectToSerialize input.keyAgreement input.service))).data
        = κ.base58Encode
          (0 :: κ.cborEncodeDetails
            (objectToSerialize input.keyAgreement input.service)) := rfl
    rw [hmkdet]
    rw [deserialize_serialize_details κ input.keyAgreement input.service
      hb58 hcbor
      (fun l hl => ⟨(hsvc l hl).1,
        fun s hs => (((hsvc l hl).2 s hs).2.2).imp
          (fun t ht => ht.2)⟩)]
    simp only []
    have hcreate' := createLightDidDocument_builds κ
      { authentication := encodeVerificationMethodToMultiKey
          ("did:kilt:light:" ++ enc ++ κ.ss58Encode apk ++
            (":" ++ κ.base58Encode
              (0 :: κ.cborEncodeDetails
                (objectToSerialize input.keyAgreement input.service))))
          authenticationKeyId ⟨akt, apk⟩
        keyAgreement := input.keyAgreement
        service := input.service } akt apk enc rfl henc hka hsvcval
    rw [hcreate']
    unfold builtLightDocument
    simp only []
    rw [hser]

/-- Witness for claim C1 (amended) at a concrete input with a key-agreement
key and a service endpoint, under the model codec. -/
theorem lightDid_roundtrip_witness :
    createLightDidDocument specCodec roundtripWitnessInput
      = Except.ok roundtripWitnessDoc
    ∧ parseDocumentFromLightDid specCodec roundtripWitnessDoc.id true
      = Except.ok roundtripWitnessDoc := by
  have hcr : createLightDidDocument specCodec roundtripWitnessInput
      = Except.ok roundtripWitnessDoc := rfl
  refine ⟨hcr, ?_⟩
  exact lightDid_roundtrip specCodec roundtripWitnessInput KeyType.ed25519
    [1, 2] "01" rfl rfl
    (by intro ka h; cases h; decide)
    (by
      intro l h
      cases h
      refine ⟨by decide, ?_⟩
      intro s hs
      simp only [List.mem_singleton] at hs
      subst hs
      exact ⟨by decide, by decide, ['s', 'v', 'c'], by decide, by decide⟩)
    (by decide) (by decide) (by decide) (by decide) (by decide) (by decide)
    (by decide) roundtripWitnessDoc hcr

end SdkJs
